import Mathlib

/-!
# eulm-files: access control and storage consistency of the file API

A shallow embedding of `src/api/api.go` (with the response helpers of
`src/api/utils.go` and the table layout of `src/api/main.go`).

* The SQLite database is a pair of row lists (`users`, `files`) in insertion
  order; `QueryRow` yields the first matching row.
* The `db/` directory is an association list from path to contents.
* The `http.ResponseWriter` is a record of the header map, the status line
  sent by the first `WriteHeader`, and the payloads written so far.
* Everything the handlers cannot control (storage faults, the clock, the
  random source) is read from an `Env` value supplied with each request.
* Logging is output only and is left out.
-/

set_option autoImplicit false

namespace EulmFiles

/-! ## Data model -/

/-- Raw file contents. -/
abbrev Bytes := List UInt8

/-- Go `type PermissionLevel int`. -/
abbrev PermissionLevel := Int

def NoPerms : PermissionLevel := 0
def ReadWriteSelf : PermissionLevel := 1
def ReadWriteAll : PermissionLevel := 2
def Administrator : PermissionLevel := 3

/-- Go `type File struct`, also a row of the `files` table. -/
structure File where
  Id : String
  Name : String
  UploadedAt : String
  Creator : String
deriving DecidableEq, Repr

/-- A row of the `users` table (`src/api/main.go`, `initDB`). -/
structure User where
  api_key : String
  username : String
  permissions : Int
deriving DecidableEq, Repr

/-- The range of a Go `int` on a 64-bit platform. -/
def inInt64 (i : Int) : Bool := decide (-(2 : Int) ^ 63 ≤ i) && decide (i < (2 : Int) ^ 63)

/-! ## `strings` and `strconv` -/

/-- Go `strings.TrimPrefix(s, pre)`. -/
def TrimPrefix (s pre : String) : String :=
  if pre.data.isPrefixOf s.data then String.mk (s.data.drop pre.data.length) else s

/-- The decimal digit character of `d % 10`. -/
def digitChar (d : Nat) : Char := Char.ofNat (48 + d % 10)

/-- Decimal digits of `n`, most significant first, in front of `acc`. -/
def formatDigits : Nat → Nat → List Char → List Char
  | 0, _, acc => acc
  | fuel + 1, n, acc =>
    if n / 10 = 0 then digitChar n :: acc
    else formatDigits fuel (n / 10) (digitChar n :: acc)

/-- Go `strconv.Itoa(i)`: a minus sign for negatives, then the decimal digits. -/
def Itoa (i : Int) : String :=
  if i < 0 then String.mk ('-' :: formatDigits (i.natAbs + 1) i.natAbs [])
  else String.mk (formatDigits (i.natAbs + 1) i.natAbs [])

/-- The two errors of `strconv.Atoi`. -/
inductive NumError where
  | ErrSyntax
  | ErrRange
deriving DecidableEq, Repr

/-- Value of a run of decimal digits continuing the number `acc`; `none` when a
character is not a digit. -/
def parseDigits : List Char → Nat → Option Nat
  | [], acc => some acc
  | c :: cs, acc =>
    if 48 ≤ c.toNat ∧ c.toNat ≤ 57 then parseDigits cs (acc * 10 + (c.toNat - 48)) else none

/-- Go `strconv.Atoi(s)`: optional sign, at least one decimal digit, and the
value must fit an `int`. -/
def Atoi (s : String) : Except NumError Int :=
  match s.data with
  | [] => .error .ErrSyntax
  | c :: t =>
    let ds : List Char := if c = '-' ∨ c = '+' then t else c :: t
    match ds with
    | [] => .error .ErrSyntax
    | _ :: _ =>
      match parseDigits ds 0 with
      | none => .error .ErrSyntax
      | some n =>
        let v : Int := if c = '-' then -(n : Int) else (n : Int)
        if inInt64 v then .ok v else .error .ErrRange

/-! ## `net/http` headers and response writer -/

/-- Go `http.Header`, one entry per stored value. -/
abbrev Header := List (String × String)

/-- Whether `c` may occur in a header field name (an HTTP token character). -/
def validHeaderFieldByte (c : Char) : Bool :=
  c.isAlphanum || [33, 35, 36, 37, 38, 39, 42, 43, 45, 46, 94, 95, 96, 124, 126].contains c.toNat

/-- Upper-case the first letter and every letter after a hyphen, lower-case the rest. -/
def canonicalChars : Bool → List Char → List Char
  | _, [] => []
  | upper, c :: cs =>
    (if upper then c.toUpper else c.toLower) :: canonicalChars (decide (c = '-')) cs

/-- Go `textproto.CanonicalMIMEHeaderKey`. -/
def CanonicalMIMEHeaderKey (s : String) : String :=
  if s.data.all validHeaderFieldByte then String.mk (canonicalChars true s.data) else s

/-- Go `Header.Get`: the first value stored under the canonical key, or `""`. -/
def Header.Get (h : Header) (key : String) : String :=
  match h.find? (fun kv => decide (kv.1 = CanonicalMIMEHeaderKey key)) with
  | some kv => kv.2
  | none => ""

/-- Go `Header.Set`: replace every value stored under the canonical key by `value`. -/
def Header.Set (h : Header) (key value : String) : Header :=
  (CanonicalMIMEHeaderKey key, value) ::
    h.filter (fun kv => decide (kv.1 ≠ CanonicalMIMEHeaderKey key))

/-- A value in a JSON envelope (`map[string]any` in the source). -/
inductive JSONValue where
  | str (s : String)
  | files (fs : List File)
deriving DecidableEq, Repr

/-- One payload handed to the response body. -/
inductive Written where
  | json (payload : List (String × JSONValue))
  | data (bytes : Bytes)
deriving DecidableEq, Repr

/-- Go `http.ResponseWriter`: the header map, the status and headers fixed by the
first `WriteHeader`, and the body payloads in the order written. -/
structure ResponseWriter where
  header : Header
  sent : Option (Nat × Header)
  body : List Written
deriving DecidableEq, Repr

/-- The writer a handler receives for a fresh request. -/
def ResponseWriter.fresh : ResponseWriter := { header := [], sent := none, body := [] }

/-- The status code on the wire, if one was sent. -/
def ResponseWriter.status (w : ResponseWriter) : Option Nat := w.sent.map (fun p => p.1)

/-- Go `WriteHeader`: only the first call takes effect. -/
def ResponseWriter.WriteHeader (w : ResponseWriter) (status : Nat) : ResponseWriter :=
  match w.sent with
  | some _ => w
  | none => { w with sent := some (status, w.header) }

/-- Go `Write`: append to the body. -/
def ResponseWriter.Write (w : ResponseWriter) (p : Written) : ResponseWriter :=
  { w with body := w.body ++ [p] }

/-- Go `respondJSON` (`src/api/utils.go`). -/
def respondJSON (w : ResponseWriter) (status : Nat) (payload : List (String × JSONValue)) :
    ResponseWriter :=
  let w1 : ResponseWriter := { w with header := w.header.Set "Content-Type" "application/json" }
  let w2 := w1.WriteHeader status
  w2.Write (.json payload)

/-- Go `respondFile` (`src/api/utils.go`). -/
def respondFile (w : ResponseWriter) (status : Nat) (fileName : String) (fileData : Bytes) :
    ResponseWriter :=
  let disposition : String := "attachment; filename=\"" ++ fileName ++ "\""
  let w1 : ResponseWriter := { w with header := w.header.Set "Content-Disposition" disposition }
  let w2 : ResponseWriter :=
    { w1 with header := w1.header.Set "Content-Type" "application/octet-stream" }
  let w3 := w2.WriteHeader status
  w3.Write (.data fileData)

/-! ## Environment and durable state -/

/-- Errors of a `database/sql` row query: `sql.ErrNoRows`, or any other failure. -/
inductive SqlErr where
  | ErrNoRows
  | other
deriving DecidableEq, Repr

/-- What a request cannot control: the clock, the random source and, for every
storage call of `src/api/api.go`, whether that call fails. -/
structure Env where
  /-- value of `datetime('now')` at the insert -/
  now : String
  /-- successive raw outputs of the random source behind `rand.Intn` -/
  rand : Nat → Nat
  /-- `validatePerms`: the `SELECT permissions, username FROM users` query fails -/
  userQueryFails : Bool
  /-- `newFileId`: the `SELECT COUNT(*)` of the k-th attempt fails -/
  idQueryFails : Nat → Bool
  /-- upload: the `INSERT INTO files` fails -/
  insertFails : Bool
  /-- upload: `os.Create` fails -/
  createFails : Bool
  /-- upload: `file.Seek(0, 0)` on the uploaded part fails -/
  seekFails : Bool
  /-- upload: `outFile.ReadFrom` fails after copying that many bytes -/
  readFromFails : Option Nat
  /-- list: the `SELECT id, file_name, uploaded_at, creator` query fails -/
  listQueryFails : Bool
  /-- list: `rows.Next` stops with an error after that many rows -/
  rowsStopAfter : Option Nat
  /-- list: `rows.Scan` of the k-th row fails -/
  rowScanFails : Nat → Bool
  /-- download: the `SELECT file_name` query fails -/
  nameQueryFails : Bool
  /-- download: `os.ReadFile` fails for a reason other than a missing file -/
  readFileFails : Bool
  /-- delete: the `SELECT creator` query fails -/
  creatorQueryFails : Bool
  /-- delete: the `SELECT COUNT(*)` query fails -/
  countQueryFails : Bool
  /-- delete: the `DELETE FROM files` statement fails -/
  deleteRowFails : Bool
  /-- delete: `os.Remove` fails for a reason other than a missing file -/
  removeFails : Bool

/-- The durable state: the two tables of `db/main.db` and the blob files of `db/`. -/
structure World where
  users : List User
  files : List File
  disk : List (String × Bytes)
deriving DecidableEq, Repr

/-- Go `multipart.FileHeader` together with the contents of the part. -/
structure FileHeader where
  Filename : String
  content : Bytes
deriving DecidableEq, Repr

/-- The parts of an `http.Request` the handlers read. -/
structure Request where
  /-- request headers -/
  Header : Header
  /-- `mux.Vars(r)["fileId"]` -/
  fileId : String
  /-- length of the request body in bytes -/
  bodyLen : Nat
  /-- the body parsed as a multipart form (field name, file part), `none` when malformed -/
  form : Option (List (String × FileHeader))
deriving DecidableEq, Repr

/-! ### Catalog queries (`database/sql` on SQLite) -/

/-- `SELECT permissions, username FROM users WHERE api_key = ?` scanned into
`(PermissionLevel, string)`; the scan fails when the integer does not fit an `int`. -/
def queryUser (fails : Bool) (users : List User) (apiKey : String) :
    Except SqlErr (PermissionLevel × String) :=
  if fails then .error .other
  else match users.find? (fun u => decide (u.api_key = apiKey)) with
    | none => .error .ErrNoRows
    | some u => if inInt64 u.permissions then .ok (u.permissions, u.username) else .error .other

/-- `SELECT COUNT(*) FROM files WHERE id = ?`. -/
def queryCount (fails : Bool) (files : List File) (id : String) : Except SqlErr Nat :=
  if fails then .error .other
  else .ok (files.filter (fun f => decide (f.Id = id))).length

/-- `SELECT file_name FROM files WHERE id = ?`. -/
def queryFileName (fails : Bool) (files : List File) (id : String) : Except SqlErr String :=
  if fails then .error .other
  else match files.find? (fun f => decide (f.Id = id)) with
    | none => .error .ErrNoRows
    | some f => .ok f.Name

/-- `SELECT creator FROM files WHERE id = ?`. -/
def queryCreator (fails : Bool) (files : List File) (id : String) : Except SqlErr String :=
  if fails then .error .other
  else match files.find? (fun f => decide (f.Id = id)) with
    | none => .error .ErrNoRows
    | some f => .ok f.Creator

/-- `INSERT INTO files (id, file_name, uploaded_at, creator) VALUES (...)`: the table
has no constraint, so the row is appended unless the statement fails. -/
def execInsert (fails : Bool) (files : List File) (row : File) : Option (List File) :=
  if fails then none else some (files ++ [row])

/-- `DELETE FROM files WHERE id = ?`. -/
def execDelete (fails : Bool) (files : List File) (id : String) : Option (List File) :=
  if fails then none else some (files.filter (fun f => decide (f.Id ≠ id)))

/-- `rows.Next` / `rows.Scan` loop of the list handler: `none` when a scan fails. -/
def scanRows (scanFails : Nat → Bool) : List File → Nat → List File → Option (List File)
  | [], _, acc => some acc
  | row :: rest, k, acc =>
    if scanFails k then none else scanRows scanFails rest (k + 1) (acc ++ [row])

/-! ### Blob store (`os` on the `db/` directory) -/

/-- Go `fmt.Sprintf("db/%s.dat", fileId)`. -/
def filePath (fileId : String) : String := "db/" ++ fileId ++ ".dat"

/-- Contents stored at `path`, if the file exists. -/
def diskLookup (disk : List (String × Bytes)) (path : String) : Option Bytes :=
  (disk.find? (fun e => decide (e.1 = path))).map (fun e => e.2)

/-- Replace (or create) the file at `path` with `data`. -/
def diskPut (disk : List (String × Bytes)) (path : String) (data : Bytes) :
    List (String × Bytes) :=
  (path, data) :: disk.filter (fun e => decide (e.1 ≠ path))

/-- Go `os.ReadFile`. -/
def osReadFile (fails : Bool) (disk : List (String × Bytes)) (path : String) : Option Bytes :=
  if fails then none else diskLookup disk path

/-- Go `os.Create`: create the file or truncate it. -/
def osCreate (fails : Bool) (disk : List (String × Bytes)) (path : String) :
    Option (List (String × Bytes)) :=
  if fails then none else some (diskPut disk path [])

/-- Go `os.Remove`: an error when the file does not exist. -/
def osRemove (fails : Bool) (disk : List (String × Bytes)) (path : String) :
    Option (List (String × Bytes)) :=
  if fails then none
  else match diskLookup disk path with
    | none => none
    | some _ => some (disk.filter (fun e => decide (e.1 ≠ path)))

/-! ## `src/api/api.go` -/

/-- A Go `http.HandlerFunc` acting on the durable state; `none` when it does not return. -/
abbrev HandlerFunc := ResponseWriter → Request → World → Option (ResponseWriter × World)

def msgUnexpected : List (String × JSONValue) := [("message", .str "An unexpected error occurred")]

def msgInsufficient : List (String × JSONValue) := [("message", .str "Insufficient permissions")]

def msgNotFound : List (String × JSONValue) := [("message", .str "File not found")]

/-- The token of a request: `strings.TrimPrefix(r.Header.Get("Authorization"), "Bearer ")`. -/
def bearerToken (r : Request) : String := TrimPrefix (r.Header.Get "Authorization") "Bearer "

/-- The request after `r.Header.Set("username", username)` and
`r.Header.Set("permissions", strconv.Itoa(int(perms)))`. -/
def attachIdentity (r : Request) (username : String) (perms : PermissionLevel) : Request :=
  { r with Header := (r.Header.Set "username" username).Set "permissions" (Itoa perms) }

/-- Go `validatePerms`. -/
def validatePerms (env : Env) (requiredPerms : PermissionLevel) (next : HandlerFunc) :
    HandlerFunc := fun w r s =>
  let apiKey := bearerToken r
  match queryUser env.userQueryFails s.users apiKey with
  | .error .ErrNoRows => some (respondJSON w 401 [("message", .str "Invalid API key")], s)
  | .error .other => some (respondJSON w 500 msgUnexpected, s)
  | .ok (perms, username) =>
    if perms < requiredPerms then some (respondJSON w 401 msgInsufficient, s)
    else next w (attachIdentity r username perms) s

/-- The alphabet of `newFileId`. -/
def charset : String := "abcdefghijklmnopqrstuvwxyzABCDEFGHIJKLMNOPQRSTUVWXYZ1234567890"

/-- The eight characters `charset[rand.Intn(len(charset))]` of the k-th attempt. -/
def drawId (rand : Nat → Nat) (k : Nat) : String :=
  String.mk ((List.range 8).map
    (fun i => charset.data.getD (rand (8 * k + i) % charset.length) 'a'))

/-- Go `newFileId`, started at attempt `k`; the recursion on a collision is unbounded in
the source, so `fuel` bounds the number of attempts and `none` means it ran out. -/
def newFileId (env : Env) (files : List File) : Nat → Nat → Option (Except SqlErr String)
  | 0, _ => none
  | fuel + 1, k =>
    let resultStr := drawId env.rand k
    match queryCount (env.idQueryFails k) files resultStr with
    | .error e => some (.error e)
    | .ok count => if count > 0 then newFileId env files fuel (k + 1) else some (.ok resultStr)

/-- Go `getPermissions`. -/
def getPermissions (r : Request) : Except NumError PermissionLevel :=
  match Atoi (r.Header.Get "permissions") with
  | .error e => .error e
  | .ok perms => .ok perms

/-- Go `r.FormFile(key)`: the first file part of that name. -/
def Request.FormFile (form : List (String × FileHeader)) (key : String) : Option FileHeader :=
  (form.find? (fun p => decide (p.1 = key))).map (fun p => p.2)

/-- `SELECT id, file_name, uploaded_at, creator FROM files WHERE creator = ?`. -/
def queryByCreator (fails : Bool) (files : List File) (username : String) : Option (List File) :=
  if fails then none else some (files.filter (fun f => decide (f.Creator = username)))

/-- `SELECT id, file_name, uploaded_at, creator FROM files`. -/
def queryAll (fails : Bool) (files : List File) : Option (List File) :=
  if fails then none else some files

/-- The second half of the upload handler (`api.go` lines 117-154), for the id `fileId`
and the response writer `w` in its current state: insert the catalog row, create the
blob file, rewind the uploaded part and copy it. -/
def storeUpload (env : Env) (w : ResponseWriter) (s : World) (fileId : String)
    (handler : FileHeader) (username : String) : ResponseWriter × World :=
  match execInsert env.insertFails s.files ⟨fileId, handler.Filename, env.now, username⟩ with
  | none => (respondJSON w 500 msgUnexpected, s)
  | some files1 =>
    let s1 : World := { s with files := files1 }
    match osCreate env.createFails s1.disk (filePath fileId) with
    | none => (respondJSON w 500 msgUnexpected, s1)
    | some disk1 =>
      let s2 : World := { s1 with disk := disk1 }
      if env.seekFails then (respondJSON w 500 msgUnexpected, s2)
      else match env.readFromFails with
      | some n =>
        (respondJSON w 500 msgUnexpected,
          { s2 with disk := diskPut s2.disk (filePath fileId) (handler.content.take n) })
      | none =>
        (respondJSON w 201
            [("message", .str "File uploaded successfully"), ("id", .str fileId)],
          { s2 with disk := diskPut s2.disk (filePath fileId) handler.content })

/-- The `POST /upload` handler of `handleApi`, inside the guard. When `newFileId` fails
the source writes the 500 response and logs, but has no `return`: it goes on with the
empty id that `newFileId` returned next to the error. -/
def uploadHandler (env : Env) (fuel : Nat) : HandlerFunc := fun w r s =>
  if 500 * 1024 * 1024 < r.bodyLen then
    some (respondJSON w 400 [("message", .str "Invalid multipart form data")], s)
  else match r.form with
  | none => some (respondJSON w 400 [("message", .str "Invalid multipart form data")], s)
  | some form =>
    match Request.FormFile form "file" with
    | none => some (respondJSON w 400 [("message", .str "Missing file in request")], s)
    | some handler =>
      match newFileId env s.files fuel 0 with
      | none => none
      | some (.error _) =>
        some (storeUpload env (respondJSON w 500 msgUnexpected) s "" handler
          (r.Header.Get "username"))
      | some (.ok fileId) =>
        some (storeUpload env w s fileId handler (r.Header.Get "username"))

/-- The `GET /list` handler of `handleApi`, inside the guard. -/
def listHandler (env : Env) : HandlerFunc := fun w r s =>
  match getPermissions r with
  | .error _ => some (respondJSON w 500 msgUnexpected, s)
  | .ok perms =>
    let queried : Option (List File) :=
      if perms < ReadWriteAll then
        let username := r.Header.Get "username"
        queryByCreator env.listQueryFails s.files username
      else queryAll env.listQueryFails s.files
    match queried with
    | none => some (respondJSON w 500 msgUnexpected, s)
    | some rows =>
      let delivered : List File := match env.rowsStopAfter with
        | none => rows
        | some n => rows.take n
      match scanRows env.rowScanFails delivered 0 [] with
      | none => some (respondJSON w 500 msgUnexpected, s)
      | some files =>
        some (respondJSON w 200
          [("message", .str "Files fetched successfully"), ("files", .files files)], s)

/-- The `GET /{fileId}` handler of `handleApi` (no guard). -/
def downloadHandler (env : Env) : HandlerFunc := fun w r s =>
  let fileId := r.fileId
  match queryFileName env.nameQueryFails s.files fileId with
  | .error .ErrNoRows => some (respondJSON w 404 msgNotFound, s)
  | .error .other => some (respondJSON w 500 msgUnexpected, s)
  | .ok fileName =>
    match osReadFile env.readFileFails s.disk (filePath fileId) with
    | none => some (respondJSON w 500 msgUnexpected, s)
    | some fileData => some (respondFile w 200 fileName fileData, s)

/-- The ownership check of the delete handler: `none` to go on, or the response. -/
def deleteOwnership (env : Env) (w : ResponseWriter) (s : World) (perms : PermissionLevel)
    (username fileId : String) : Option ResponseWriter :=
  if perms < ReadWriteAll then
    match queryCreator env.creatorQueryFails s.files fileId with
    | .error .ErrNoRows => some (respondJSON w 404 msgNotFound)
    | .error .other => some (respondJSON w 500 msgUnexpected)
    | .ok fileUser =>
      if username ≠ fileUser then some (respondJSON w 401 msgInsufficient) else none
  else none

/-- The `DELETE /{fileId}` handler of `handleApi`, inside the guard. -/
def deleteHandler (env : Env) : HandlerFunc := fun w r s =>
  let fileId := r.fileId
  let username := r.Header.Get "username"
  match getPermissions r with
  | .error _ => some (respondJSON w 500 msgUnexpected, s)
  | .ok perms =>
    match deleteOwnership env w s perms username fileId with
    | some denied => some (denied, s)
    | none =>
      match queryCount env.countQueryFails s.files fileId with
      | .error _ => some (respondJSON w 500 msgUnexpected, s)
      | .ok count =>
        if count = 0 then some (respondJSON w 404 msgNotFound, s)
        else match execDelete env.deleteRowFails s.files fileId with
        | none => some (respondJSON w 500 msgUnexpected, s)
        | some files1 =>
          let s1 : World := { s with files := files1 }
          match osRemove env.removeFails s1.disk (filePath fileId) with
          | none => some (respondJSON w 500 msgUnexpected, s1)
          | some disk1 =>
            some (respondJSON w 200 [("message", .str "File deleted successfully")],
              { s1 with disk := disk1 })

/-- The four routes registered by `handleApi`. -/
inductive Route where
  | postUpload
  | getList
  | getFile
  | deleteFile
deriving DecidableEq, Repr

/-- Go `handleApi`: the handler registered for each route. -/
def handleApi (env : Env) (fuel : Nat) : Route → HandlerFunc
  | .postUpload => validatePerms env ReadWriteSelf (uploadHandler env fuel)
  | .getList => validatePerms env ReadWriteSelf (listHandler env)
  | .getFile => downloadHandler env
  | .deleteFile => validatePerms env ReadWriteSelf (deleteHandler env)

/-- Serving one request: the routed handler runs on a fresh response writer. -/
def serve (env : Env) (fuel : Nat) (route : Route) (r : Request) (s : World) :
    Option (ResponseWriter × World) :=
  handleApi env fuel route ResponseWriter.fresh r s

/-- No catalog call and no blob-store call of the request fails. -/
def Env.storageOk (env : Env) : Prop :=
  env.userQueryFails = false ∧ (∀ k, env.idQueryFails k = false) ∧ env.insertFails = false ∧
  env.createFails = false ∧ env.readFromFails = none ∧ env.listQueryFails = false ∧
  env.rowsStopAfter = none ∧ (∀ k, env.rowScanFails k = false) ∧ env.nameQueryFails = false ∧
  env.readFileFails = false ∧ env.creatorQueryFails = false ∧ env.countQueryFails = false ∧
  env.deleteRowFails = false ∧ env.removeFails = false

/-- States reachable from the empty catalog and empty blob store (with a given `users`
table) by serving requests whose environment and route satisfy `allowed`. -/
inductive Reachable (allowed : Env → Route → Prop) (users : List User) : World → Prop where
  | init : Reachable allowed users { users := users, files := [], disk := [] }
  | step {s s1 : World} {env : Env} {fuel : Nat} {route : Route} {r : Request}
      {w : ResponseWriter} :
      Reachable allowed users s → allowed env route → serve env fuel route r s = some (w, s1) →
      Reachable allowed users s1

/-- An environment in which nothing fails; the random source counts upwards. -/
def Env.calm : Env :=
  { now := "2024-01-01 00:00:00", rand := fun k => k, userQueryFails := false,
    idQueryFails := fun _ => false, insertFails := false, createFails := false,
    seekFails := false, readFromFails := none, listQueryFails := false, rowsStopAfter := none,
    rowScanFails := fun _ => false, nameQueryFails := false, readFileFails := false,
    creatorQueryFails := false, countQueryFails := false, deleteRowFails := false,
    removeFails := false }

/-- A blob is stored under an id exactly when the catalog has a record with that id. -/
def Consistent (s : World) : Prop :=
  ∀ i : String, (diskLookup s.disk (filePath i)).isSome = true ↔ ∃ f ∈ s.files, f.Id = i

/-- Requests that upload or delete. -/
def uploadOrDelete (_ : Env) (route : Route) : Prop := route = .postUpload ∨ route = .deleteFile

/-- Requests of any route during which no catalog or blob-store call fails. -/
def withoutStorageFault (env : Env) (_ : Route) : Prop := env.storageOk

/-- Requests of any route during which no catalog lookup of `newFileId` fails. -/
def allocatorLookupsOk (env : Env) (_ : Route) : Prop := ∀ k, env.idQueryFails k = false

/-- An environment in which every catalog lookup of `newFileId` fails and nothing else. -/
def Env.lookupDown : Env := { Env.calm with idQueryFails := fun _ => true }

/-- Whether a header entry is stored under a key other than the two the guard writes,
`username` and `permissions` (in canonical form, as the server stores client headers). -/
def notIdentityHeader (kv : String × String) : Bool :=
  decide (kv.1 ≠ CanonicalMIMEHeaderKey "permissions") &&
    decide (kv.1 ≠ CanonicalMIMEHeaderKey "username")

/-- Two requests that differ at most in their `username` and `permissions` headers. -/
def sameExceptIdentity (r1 r2 : Request) : Prop :=
  r1.fileId = r2.fileId ∧ r1.bodyLen = r2.bodyLen ∧ r1.form = r2.form ∧
  r1.Header.filter notIdentityHeader = r2.Header.filter notIdentityHeader

/-! ### Sample data used to instantiate the theorems -/

def demoUsers : List User :=
  [⟨"key-bob", "bob", 1⟩, ⟨"key-amy", "amy", 1⟩, ⟨"key-eve", "eve", 2⟩, ⟨"key-root", "Master", 3⟩]

def demoFiles : List File :=
  [⟨"aaaaaaa1", "notes.txt", "2024-01-01 00:00:00", "amy"⟩,
   ⟨"aaaaaaa2", "todo.txt", "2024-01-02 00:00:00", "bob"⟩]

def demoWorld : World :=
  { users := demoUsers, files := demoFiles,
    disk := [("db/aaaaaaa1.dat", [104, 105]), ("db/aaaaaaa2.dat", [1, 2, 3])] }

/-- A request carrying `Authorization: Bearer <key>` for the file id `fileId`. -/
def demoRequest (key fileId : String) : Request :=
  { Header := [("Authorization", "Bearer " ++ key)], fileId := fileId, bodyLen := 0, form := none }

/-- An upload request with one `file` part. -/
def demoUpload (key name : String) (content : Bytes) : Request :=
  { Header := [("Authorization", "Bearer " ++ key)], fileId := "", bodyLen := 200,
    form := some [("file", ⟨name, content⟩)] }

/-- The request `demoRequest key fileId` with client-supplied `username` and
`permissions` headers claiming to be the administrator. -/
def forgedRequest (key fileId : String) : Request :=
  { Header := [("Username", "Master"), ("Permissions", "3"),
      ("Authorization", "Bearer " ++ key)],
    fileId := fileId, bodyLen := 0, form := none }

/-! ## Basic facts about the embedding -/

section Basics

theorem digitChar_toNat (d : Nat) : (digitChar d).toNat = 48 + d % 10 := by
  have hlt : d % 10 < 10 := Nat.mod_lt _ (by decide)
  unfold digitChar
  generalize d % 10 = k at hlt
  interval_cases k <;> rfl

theorem parseDigits_digitChar (d : Nat) (cs : List Char) (acc : Nat) :
    parseDigits (digitChar d :: cs) acc = parseDigits cs (acc * 10 + d % 10) := by
  have h := digitChar_toNat d
  have hlt : d % 10 < 10 := Nat.mod_lt _ (by decide)
  have hc : 48 ≤ (digitChar d).toNat ∧ (digitChar d).toNat ≤ 57 := by omega
  have hv : (digitChar d).toNat - 48 = d % 10 := by omega
  simp only [parseDigits, hc, and_self, if_true, hv]

theorem parseDigits_formatDigits (fuel : Nat) :
    ∀ (n : Nat) (acc : List Char), n < fuel →
      parseDigits (formatDigits fuel n acc) 0 = parseDigits acc n := by
  induction fuel with
  | zero => intro n acc h; omega
  | succ fuel ih =>
    intro n acc h
    unfold formatDigits
    split
    · rename_i h0
      rw [parseDigits_digitChar]
      have : n % 10 = n := Nat.mod_eq_of_lt (by omega)
      simp [this]
    · rename_i h0
      rw [ih (n / 10) _ (by omega), parseDigits_digitChar]
      have : n / 10 * 10 + n % 10 = n := by omega
      rw [this]

theorem formatDigits_head (fuel n : Nat) (acc : List Char) :
    ∃ d rest, formatDigits (fuel + 1) n acc = digitChar d :: rest := by
  induction fuel generalizing n acc with
  | zero =>
    refine ⟨n, acc, ?_⟩
    simp [formatDigits]
  | succ fuel ih =>
    unfold formatDigits
    split
    · exact ⟨n, acc, rfl⟩
    · exact ih _ _

theorem digitChar_ne_sign (d : Nat) : digitChar d ≠ '-' ∧ digitChar d ≠ '+' := by
  have h := digitChar_toNat d
  constructor <;> intro hc <;> rw [hc] at h <;> revert h <;> simp <;> omega

/-- `strconv.Atoi` undoes `strconv.Itoa` on every value of a Go `int`. -/
theorem Atoi_Itoa (i : Int) (hi : inInt64 i = true) : Atoi (Itoa i) = .ok i := by
  obtain ⟨d, rest, hd⟩ := formatDigits_head i.natAbs i.natAbs []
  have hp := parseDigits_formatDigits (i.natAbs + 1) i.natAbs [] (by omega)
  obtain ⟨hm, hpl⟩ := digitChar_ne_sign d
  by_cases hneg : i < 0
  · have hv : -((i.natAbs : Nat) : Int) = i := by omega
    simp only [Itoa, hneg, if_true, Atoi, true_or]
    rw [hd] at hp ⊢
    simp only [hp]
    simp only [parseDigits, hv, hi, if_true]
  · have hv : ((i.natAbs : Nat) : Int) = i := by omega
    simp only [Itoa, hneg, if_false, Atoi]
    rw [hd] at hp ⊢
    simp only [hm, hpl, or_self, if_false, hp]
    simp only [parseDigits, hv, hi, if_true]

end Basics

/-! ## Headers and the identity attached by the guard -/

section Guard

theorem Header.Get_Set_same (h : Header) (k v : String) : (h.Set k v).Get k = v := by
  simp [Header.Get, Header.Set]

theorem Header.Get_Set_other (h : Header) (k k2 v : String)
    (hne : CanonicalMIMEHeaderKey k2 ≠ CanonicalMIMEHeaderKey k) :
    (h.Set k2 v).Get k = h.Get k := by
  have hfind : ∀ l : Header,
      (l.filter (fun kv => decide (kv.1 ≠ CanonicalMIMEHeaderKey k2))).find?
          (fun kv => decide (kv.1 = CanonicalMIMEHeaderKey k)) =
        l.find? (fun kv => decide (kv.1 = CanonicalMIMEHeaderKey k)) := by
    intro l
    induction l with
    | nil => rfl
    | cons e l ih =>
      by_cases h2 : e.1 = CanonicalMIMEHeaderKey k2
      · have h1 : e.1 ≠ CanonicalMIMEHeaderKey k := by rw [h2]; exact hne
        rw [List.filter_cons_of_neg (by simpa using h2), ih,
          List.find?_cons_of_neg _ (by simpa using h1)]
      · rw [List.filter_cons_of_pos (by simpa using h2), List.find?_cons, List.find?_cons, ih]
  unfold Header.Get Header.Set
  rw [List.find?_cons]
  simp only [hne, decide_False, hfind]

theorem attachIdentity_username (r : Request) (u : String) (p : PermissionLevel) :
    (attachIdentity r u p).Header.Get "username" = u := by
  unfold attachIdentity
  rw [Header.Get_Set_other _ _ _ _ (by decide), Header.Get_Set_same]

theorem attachIdentity_permissions (r : Request) (u : String) (p : PermissionLevel) :
    (attachIdentity r u p).Header.Get "permissions" = Itoa p := by
  unfold attachIdentity
  rw [Header.Get_Set_same]

theorem getPermissions_attachIdentity (r : Request) (u : String) (p : PermissionLevel)
    (hp : inInt64 p = true) : getPermissions (attachIdentity r u p) = .ok p := by
  unfold getPermissions
  rw [attachIdentity_permissions, Atoi_Itoa p hp]

theorem queryUser_ok_inInt64 {fails : Bool} {users : List User} {key : String}
    {p : PermissionLevel} {u : String} (h : queryUser fails users key = .ok (p, u)) :
    inInt64 p = true := by
  unfold queryUser at h
  split at h
  · cases h
  · split at h
    · cases h
    · split at h
      · cases h; assumption
      · cases h

theorem validatePerms_pass (env : Env) (q : PermissionLevel) (next : HandlerFunc)
    (w : ResponseWriter) (r : Request) (s : World) (p : PermissionLevel) (u : String)
    (hid : queryUser env.userQueryFails s.users (bearerToken r) = .ok (p, u)) (hq : q ≤ p) :
    validatePerms env q next w r s = next w (attachIdentity r u p) s := by
  have : ¬ p < q := Int.not_lt.mpr hq
  simp [validatePerms, hid, this]

theorem validatePerms_reject (env : Env) (q : PermissionLevel) (next : HandlerFunc)
    (w : ResponseWriter) (r : Request) (s : World) (p : PermissionLevel) (u : String)
    (hid : queryUser env.userQueryFails s.users (bearerToken r) = .ok (p, u)) (hq : p < q) :
    validatePerms env q next w r s = some (respondJSON w 401 msgInsufficient, s) := by
  simp [validatePerms, hid, hq]

end Guard

/-! ## C1: the guard -/

/-- C1. With the identity lookup succeeding, the guard `validatePerms` on bearer token `t`
and required role `q` does exactly one of three things: when no user row has
`api_key = t` it answers 401 "Invalid API key"; when the row found has a role below `q`
it answers 401 "Insufficient permissions"; in both cases the result does not depend on
the wrapped handler. Otherwise it is the wrapped handler run on the request with the
row's username and role stored in the `username` and `permissions` headers. -/
theorem validatePerms_outcomes (env : Env) (q : PermissionLevel) (next : HandlerFunc)
    (w : ResponseWriter) (r : Request) (s : World) (t : String)
    (ht : bearerToken r = t) (hq : env.userQueryFails = false) :
    ((∀ u ∈ s.users, u.api_key ≠ t) →
        validatePerms env q next w r s =
          some (respondJSON w 401 [("message", .str "Invalid API key")], s)) ∧
    (∀ u : User, s.users.find? (fun x => decide (x.api_key = t)) = some u →
        inInt64 u.permissions = true →
        (u.permissions < q →
          validatePerms env q next w r s =
            some (respondJSON w 401 [("message", .str "Insufficient permissions")], s)) ∧
        (q ≤ u.permissions →
          validatePerms env q next w r s =
            next w (attachIdentity r u.username u.permissions) s ∧
          (attachIdentity r u.username u.permissions).Header.Get "username" = u.username ∧
          (attachIdentity r u.username u.permissions).Header.Get "permissions" =
            Itoa u.permissions)) := by
  constructor
  · intro hnone
    have hfind : s.users.find? (fun x => decide (x.api_key = t)) = none := by
      rw [List.find?_eq_none]
      intro x hx
      simpa using hnone x hx
    simp [validatePerms, queryUser, ht, hq, hfind]
  · intro u hfind hrange
    have hid : queryUser env.userQueryFails s.users (bearerToken r) =
        .ok (u.permissions, u.username) := by
      simp [queryUser, ht, hq, hfind, hrange]
    refine ⟨fun hlt => ?_, fun hle => ⟨?_, ?_, ?_⟩⟩
    · exact validatePerms_reject env q next w r s _ _ hid hlt
    · exact validatePerms_pass env q next w r s _ _ hid hle
    · exact attachIdentity_username _ _ _
    · exact attachIdentity_permissions _ _ _

/-- C1 at a concrete request: bob holds `ReadWriteSelf`, so a guard that requires
`ReadWriteAll` answers 401 "Insufficient permissions". -/
theorem validatePerms_outcomes_witness :
    validatePerms Env.calm ReadWriteAll (listHandler Env.calm) ResponseWriter.fresh
        (demoRequest "key-bob" "") demoWorld =
      some (respondJSON ResponseWriter.fresh 401
        [("message", .str "Insufficient permissions")], demoWorld) :=
  ((validatePerms_outcomes Env.calm ReadWriteAll (listHandler Env.calm) ResponseWriter.fresh
      (demoRequest "key-bob" "") demoWorld "key-bob" (by decide) rfl).2
    ⟨"key-bob", "bob", 1⟩ (by decide) (by decide)).1 (by decide)

/-! ## C2: listing -/

theorem scanRows_ok (scanFails : Nat → Bool) (h : ∀ k, scanFails k = false) :
    ∀ (rows : List File) (k : Nat) (acc : List File),
      scanRows scanFails rows k acc = some (acc ++ rows) := by
  intro rows
  induction rows with
  | nil => intro k acc; simp [scanRows]
  | cons row rest ih => intro k acc; simp [scanRows, h, ih]

/-- C2. For an authenticated caller (the token resolves to username `u` and a role of at
least `ReadWriteSelf`) and with the catalog reads of the list handler succeeding,
`GET /list` answers 200 with exactly the records whose creator is `u` when the role is
below `ReadWriteAll`, and with all records of the catalog when it is `ReadWriteAll` or
above; the state is unchanged. -/
theorem list_scoped_by_role (env : Env) (fuel : Nat) (r : Request) (s : World)
    (role : PermissionLevel) (u : String)
    (hid : queryUser env.userQueryFails s.users (bearerToken r) = .ok (role, u))
    (hrole : ReadWriteSelf ≤ role)
    (hquery : env.listQueryFails = false) (hstop : env.rowsStopAfter = none)
    (hscan : ∀ k, env.rowScanFails k = false) :
    (role < ReadWriteAll →
      serve env fuel .getList r s =
        some (respondJSON ResponseWriter.fresh 200
          [("message", .str "Files fetched successfully"),
           ("files", .files (s.files.filter (fun f => decide (f.Creator = u))))], s)) ∧
    (ReadWriteAll ≤ role →
      serve env fuel .getList r s =
        some (respondJSON ResponseWriter.fresh 200
          [("message", .str "Files fetched successfully"), ("files", .files s.files)], s)) := by
  have hrange := queryUser_ok_inInt64 hid
  have hserve : serve env fuel .getList r s =
      listHandler env ResponseWriter.fresh (attachIdentity r u role) s := by
    unfold serve handleApi
    exact validatePerms_pass env _ _ _ r s role u hid hrole
  rw [hserve]
  unfold listHandler
  rw [getPermissions_attachIdentity r u role hrange, attachIdentity_username]
  constructor
  · intro hlt
    simp [hlt, queryByCreator, hquery, hstop, scanRows_ok _ hscan]
  · intro hge
    have hnlt : ¬ role < ReadWriteAll := Int.not_lt.mpr hge
    simp [hnlt, queryAll, hquery, hstop, scanRows_ok _ hscan]

/-- C2 at concrete requests: bob (`ReadWriteSelf`) sees only his own record. -/
theorem list_scoped_by_role_witness :
    serve Env.calm 0 .getList (demoRequest "key-bob" "") demoWorld =
      some (respondJSON ResponseWriter.fresh 200
        [("message", .str "Files fetched successfully"),
         ("files", .files (demoWorld.files.filter (fun f => decide (f.Creator = "bob"))))],
        demoWorld) :=
  (list_scoped_by_role Env.calm 0 (demoRequest "key-bob" "") demoWorld 1 "bob" rfl
    (by decide) rfl rfl (fun _ => rfl)).1 (by decide)

/-! ## Download and delete on a single file id -/

section DeleteDownload

theorem serve_delete_authed (env : Env) (fuel : Nat) (r : Request) (s : World)
    (role : PermissionLevel) (u : String)
    (hid : queryUser env.userQueryFails s.users (bearerToken r) = .ok (role, u))
    (hrole : ReadWriteSelf ≤ role) :
    serve env fuel .deleteFile r s =
      match deleteOwnership env ResponseWriter.fresh s role u r.fileId with
      | some denied => some (denied, s)
      | none =>
        match queryCount env.countQueryFails s.files r.fileId with
        | .error _ => some (respondJSON ResponseWriter.fresh 500 msgUnexpected, s)
        | .ok count =>
          if count = 0 then some (respondJSON ResponseWriter.fresh 404 msgNotFound, s)
          else match execDelete env.deleteRowFails s.files r.fileId with
          | none => some (respondJSON ResponseWriter.fresh 500 msgUnexpected, s)
          | some files1 =>
            match osRemove env.removeFails s.disk (filePath r.fileId) with
            | none =>
              some (respondJSON ResponseWriter.fresh 500 msgUnexpected, { s with files := files1 })
            | some disk1 =>
              some (respondJSON ResponseWriter.fresh 200
                  [("message", .str "File deleted successfully")],
                { s with files := files1, disk := disk1 }) := by
  have hrange := queryUser_ok_inInt64 hid
  have hserve : serve env fuel .deleteFile r s =
      deleteHandler env ResponseWriter.fresh (attachIdentity r u role) s := by
    unfold serve handleApi
    exact validatePerms_pass env _ _ _ r s role u hid hrole
  rw [hserve]
  unfold deleteHandler
  rw [getPermissions_attachIdentity r u role hrange, attachIdentity_username]
  rfl

theorem serve_download (env : Env) (fuel : Nat) (r : Request) (s : World) :
    serve env fuel .getFile r s =
      match queryFileName env.nameQueryFails s.files r.fileId with
      | .error .ErrNoRows => some (respondJSON ResponseWriter.fresh 404 msgNotFound, s)
      | .error .other => some (respondJSON ResponseWriter.fresh 500 msgUnexpected, s)
      | .ok fileName =>
        match osReadFile env.readFileFails s.disk (filePath r.fileId) with
        | none => some (respondJSON ResponseWriter.fresh 500 msgUnexpected, s)
        | some fileData => some (respondFile ResponseWriter.fresh 200 fileName fileData, s) :=
  rfl

theorem find_none_of_absent {files : List File} {i : String} (h : ∀ f ∈ files, f.Id ≠ i) :
    files.find? (fun f => decide (f.Id = i)) = none := by
  rw [List.find?_eq_none]
  intro x hx
  simpa using h x hx

theorem filter_nil_of_absent {files : List File} {i : String} (h : ∀ f ∈ files, f.Id ≠ i) :
    files.filter (fun f => decide (f.Id = i)) = [] := by
  rw [List.filter_eq_nil_iff]
  intro x hx
  simpa using h x hx

theorem count_pos_of_find {files : List File} {i : String} {rec : File}
    (h : files.find? (fun f => decide (f.Id = i)) = some rec) :
    (files.filter (fun f => decide (f.Id = i))).length ≠ 0 := by
  have hmem : rec ∈ files.filter (fun f => decide (f.Id = i)) := by
    rw [List.mem_filter]
    have hp : (fun f : File => decide (f.Id = i)) rec = true :=
      @List.find?_some File (fun f => decide (f.Id = i)) rec files h
    exact ⟨List.mem_of_find?_eq_some h, hp⟩
  intro h0
  rw [List.length_eq_zero] at h0
  rw [h0] at hmem
  cases hmem

end DeleteDownload

/-! ## C3: deleting another user's file -/

/-- C3. Let file id `f` have a record (its creator being the one the catalog reports,
`rec.Creator`) and a blob, and let the caller resolve to role `ReadWriteSelf` and a
username `u` different from that creator. With the creator lookup succeeding, `DELETE f`
answers 401 "Insufficient permissions" and leaves catalog and blob store as they were;
a download of `f` served next (its two reads succeeding) answers 200 with the record's
file name and the blob's bytes. -/
theorem delete_foreign_denied (env : Env) (fuel : Nat) (r : Request) (s : World) (u : String)
    (rec : File) (bytes : Bytes)
    (hid : queryUser env.userQueryFails s.users (bearerToken r) = .ok (ReadWriteSelf, u))
    (hrec : s.files.find? (fun f => decide (f.Id = r.fileId)) = some rec)
    (hblob : diskLookup s.disk (filePath r.fileId) = some bytes)
    (hother : u ≠ rec.Creator)
    (hcreator : env.creatorQueryFails = false) :
    serve env fuel .deleteFile r s =
      some (respondJSON ResponseWriter.fresh 401
        [("message", .str "Insufficient permissions")], s) ∧
    ∀ (env2 : Env) (fuel2 : Nat) (r2 : Request), r2.fileId = r.fileId →
      env2.nameQueryFails = false → env2.readFileFails = false →
      (serve env fuel .deleteFile r s).bind (fun p => serve env2 fuel2 .getFile r2 p.2) =
        some (respondFile ResponseWriter.fresh 200 rec.Name bytes, s) := by
  have hdel : serve env fuel .deleteFile r s =
      some (respondJSON ResponseWriter.fresh 401
        [("message", .str "Insufficient permissions")], s) := by
    rw [serve_delete_authed env fuel r s ReadWriteSelf u hid (le_refl _)]
    have hlt : ReadWriteSelf < ReadWriteAll := by decide
    simp [deleteOwnership, hlt, queryCreator, hcreator, hrec, hother, msgInsufficient]
  refine ⟨hdel, ?_⟩
  intro env2 fuel2 r2 hfile hname hread
  rw [hdel, Option.some_bind, serve_download, hfile]
  simp [queryFileName, hname, hrec, osReadFile, hread, hblob]

/-- C3 at a concrete request: bob may not delete amy's file, which stays downloadable. -/
theorem delete_foreign_denied_witness :
    (serve Env.calm 0 .deleteFile (demoRequest "key-bob" "aaaaaaa1") demoWorld).bind
        (fun p => serve Env.calm 0 .getFile (demoRequest "" "aaaaaaa1") p.2) =
      some (respondFile ResponseWriter.fresh 200 "notes.txt" [104, 105], demoWorld) :=
  (delete_foreign_denied Env.calm 0 (demoRequest "key-bob" "aaaaaaa1") demoWorld "bob"
    ⟨"aaaaaaa1", "notes.txt", "2024-01-01 00:00:00", "amy"⟩ [104, 105] rfl rfl rfl
    (by decide) rfl).2 Env.calm 0 (demoRequest "" "aaaaaaa1") rfl rfl rfl

/-! ## C5: ids without a record -/

/-- C5. Let id `i` (the `fileId` of the request) have no record in the catalog. With
the catalog reads succeeding, a download of `i` answers 404 "File not found", and a
delete of `i` by any caller who passes the guard (role at least `ReadWriteSelf`, below
or above `ReadWriteAll`) answers 404 "File not found"; both leave the state unchanged. -/
theorem absent_id_not_found (env : Env) (fuel : Nat) (r : Request) (s : World)
    (habsent : ∀ f ∈ s.files, f.Id ≠ r.fileId) :
    (env.nameQueryFails = false →
      serve env fuel .getFile r s =
        some (respondJSON ResponseWriter.fresh 404 [("message", .str "File not found")], s)) ∧
    (∀ (role : PermissionLevel) (u : String),
      queryUser env.userQueryFails s.users (bearerToken r) = .ok (role, u) →
      ReadWriteSelf ≤ role → env.creatorQueryFails = false → env.countQueryFails = false →
      serve env fuel .deleteFile r s =
        some (respondJSON ResponseWriter.fresh 404 [("message", .str "File not found")], s)) := by
  have hfind := find_none_of_absent habsent
  have hfilter := filter_nil_of_absent habsent
  constructor
  · intro hname
    rw [serve_download]
    simp [queryFileName, hname, hfind, msgNotFound]
  · intro role u hid hrole hcreator hcount
    rw [serve_delete_authed env fuel r s role u hid hrole]
    by_cases hlt : role < ReadWriteAll
    · simp [deleteOwnership, hlt, queryCreator, hcreator, hfind, msgNotFound]
    · simp [deleteOwnership, hlt, queryCount, hcount, hfilter, msgNotFound]

/-- C5 at a concrete request: the administrator deletes an id that has no record. -/
theorem absent_id_not_found_witness :
    serve Env.calm 0 .deleteFile (demoRequest "key-root" "zzzzzzzz") demoWorld =
      some (respondJSON ResponseWriter.fresh 404 [("message", .str "File not found")],
        demoWorld) :=
  (absent_id_not_found Env.calm 0 (demoRequest "key-root" "zzzzzzzz") demoWorld
    (by decide)).2 3 "Master" rfl (by decide) rfl rfl

/-! ## C6 and C8: deleting an existing file -/

section Disk

theorem filePath_injective {a b : String} (h : filePath a = filePath b) : a = b := by
  have hd : (filePath a).data = (filePath b).data := congrArg String.data h
  simp only [filePath, String.data_append] at hd
  have h1 := List.append_cancel_right hd
  have h2 := List.append_cancel_left h1
  exact String.ext h2

theorem diskLookup_filter (disk : List (String × Bytes)) (p q : String) :
    diskLookup (disk.filter (fun e => decide (e.1 ≠ p))) q =
      if q = p then none else diskLookup disk q := by
  unfold diskLookup
  induction disk with
  | nil => simp
  | cons e rest ih =>
    by_cases hp : e.1 = p
    · rw [List.filter_cons_of_neg (by simpa using hp), ih]
      by_cases hq : q = p
      · simp [hq]
      · have hne : e.1 ≠ q := by rw [hp]; exact fun hc => hq hc.symm
        rw [List.find?_cons_of_neg _ (by simpa using hne)]
    · rw [List.filter_cons_of_pos (by simpa using hp), List.find?_cons, List.find?_cons]
      by_cases hq : e.1 = q
      · have hqp : q ≠ p := by rw [← hq]; exact hp
        simp [hq, hqp]
      · simp only [hq, decide_False]
        exact ih

theorem diskLookup_diskPut (disk : List (String × Bytes)) (p q : String) (data : Bytes) :
    diskLookup (diskPut disk p data) q = if q = p then some data else diskLookup disk q := by
  by_cases hq : q = p
  · simp [diskPut, diskLookup, hq]
  · have hne : ¬ p = q := fun hc => hq hc.symm
    have h := diskLookup_filter disk p q
    simp only [hq, if_false] at h
    unfold diskPut
    unfold diskLookup at h ⊢
    rw [List.find?_cons_of_neg _ (by simpa using hne), h]
    simp [hq]

end Disk

/-- C6. Let file id `f` have a record and a blob, and let the caller be either the
creator of `f` with role `ReadWriteSelf`, or any user with a role of at least
`ReadWriteAll`. When no storage call of the delete fails, `DELETE f` answers 200 "File
deleted successfully"; afterwards the catalog has no record with id `f`, the blob store
has no blob for `f`, and the records and blobs of every other id are as before. -/
theorem delete_removes_record_and_blob (env : Env) (fuel : Nat) (r : Request) (s : World)
    (role : PermissionLevel) (u : String) (rec : File) (bytes : Bytes)
    (hid : queryUser env.userQueryFails s.users (bearerToken r) = .ok (role, u))
    (hrec : s.files.find? (fun f => decide (f.Id = r.fileId)) = some rec)
    (hblob : diskLookup s.disk (filePath r.fileId) = some bytes)
    (hauth : (role = ReadWriteSelf ∧ u = rec.Creator) ∨ ReadWriteAll ≤ role)
    (hcreator : env.creatorQueryFails = false) (hcount : env.countQueryFails = false)
    (hdelete : env.deleteRowFails = false) (hremove : env.removeFails = false) :
    ∃ s1 : World,
      serve env fuel .deleteFile r s =
        some (respondJSON ResponseWriter.fresh 200
          [("message", .str "File deleted successfully")], s1) ∧
      s1.files = s.files.filter (fun g => decide (g.Id ≠ r.fileId)) ∧
      s1.files.find? (fun g => decide (g.Id = r.fileId)) = none ∧
      diskLookup s1.disk (filePath r.fileId) = none ∧
      (∀ j : String, j ≠ r.fileId →
        diskLookup s1.disk (filePath j) = diskLookup s.disk (filePath j)) ∧
      s1.users = s.users := by
  have hrole : ReadWriteSelf ≤ role := by
    rcases hauth with ⟨h, _⟩ | h
    · exact le_of_eq h.symm
    · exact le_trans (by decide) h
  have hown : deleteOwnership env ResponseWriter.fresh s role u r.fileId = none := by
    rcases hauth with ⟨h, hu⟩ | h
    · have hlt : role < ReadWriteAll := by rw [h]; decide
      simp [deleteOwnership, hlt, queryCreator, hcreator, hrec, hu]
    · have hnlt : ¬ role < ReadWriteAll := Int.not_lt.mpr h
      simp [deleteOwnership, hnlt]
  refine ⟨{ s with files := s.files.filter (fun g => decide (g.Id ≠ r.fileId)),
                   disk := s.disk.filter (fun e => decide (e.1 ≠ filePath r.fileId)) },
    ?_, rfl, ?_, ?_, ?_, rfl⟩
  · rw [serve_delete_authed env fuel r s role u hid hrole, hown]
    simp [queryCount, hcount, count_pos_of_find hrec, execDelete, hdelete, osRemove, hremove,
      hblob]
  · rw [List.find?_eq_none]
    intro x hx
    have := (List.mem_filter.mp hx).2
    simpa using this
  · show diskLookup (s.disk.filter _) _ = none
    rw [diskLookup_filter]
    simp
  · intro j hj
    show diskLookup (s.disk.filter _) _ = _
    rw [diskLookup_filter]
    have hne : filePath j ≠ filePath r.fileId := fun hc => hj (filePath_injective hc)
    simp [hne]

/-- C6 at a concrete request: amy deletes her own file. -/
theorem delete_removes_record_and_blob_witness :
    ∃ s1 : World,
      serve Env.calm 0 .deleteFile (demoRequest "key-amy" "aaaaaaa1") demoWorld =
        some (respondJSON ResponseWriter.fresh 200
          [("message", .str "File deleted successfully")], s1) ∧
      s1.files = demoWorld.files.filter (fun g => decide (g.Id ≠ "aaaaaaa1")) ∧
      s1.files.find? (fun g => decide (g.Id = "aaaaaaa1")) = none ∧
      diskLookup s1.disk (filePath "aaaaaaa1") = none ∧
      (∀ j : String, j ≠ "aaaaaaa1" →
        diskLookup s1.disk (filePath j) = diskLookup demoWorld.disk (filePath j)) ∧
      s1.users = demoWorld.users :=
  delete_removes_record_and_blob Env.calm 0 (demoRequest "key-amy" "aaaaaaa1") demoWorld 1 "amy"
    ⟨"aaaaaaa1", "notes.txt", "2024-01-01 00:00:00", "amy"⟩ [104, 105] rfl rfl rfl
    (Or.inl ⟨rfl, rfl⟩) rfl rfl rfl rfl

/-- C8, as stated, fails: the administrator deletes an existing file, the catalog row is
deleted and `os.Remove` fails. The handler answers 500 "An unexpected error occurred",
not the 200 "deleted" response; the row is gone and the blob is still on disk. -/
theorem delete_blob_failure_counterexample :
    serve { Env.calm with removeFails := true } 0 .deleteFile
        (demoRequest "key-root" "aaaaaaa1") demoWorld =
      some (respondJSON ResponseWriter.fresh 500
          [("message", .str "An unexpected error occurred")],
        { demoWorld with files := [⟨"aaaaaaa2", "todo.txt", "2024-01-02 00:00:00", "bob"⟩] }) ∧
    (respondJSON ResponseWriter.fresh 500
        [("message", .str "An unexpected error occurred")]).status = some 500 ∧
    (respondJSON ResponseWriter.fresh 500
        [("message", .str "An unexpected error occurred")]).status ≠ some 200 ∧
    diskLookup demoWorld.disk (filePath "aaaaaaa1") = some [104, 105] := by
  refine ⟨by rfl, by rfl, by decide, by rfl⟩

/-- C8, amended. For every authorised delete of an existing file in which the catalog
row deletion succeeds but the blob deletion fails, the request is failed: the caller
receives 500 "An unexpected error occurred"; the catalog rows of that id are gone and
the blob store is left exactly as it was, so an orphan blob stays in place. -/
theorem delete_blob_failure_is_internal_error (env : Env) (fuel : Nat) (r : Request)
    (s : World) (role : PermissionLevel) (u : String) (rec : File)
    (hid : queryUser env.userQueryFails s.users (bearerToken r) = .ok (role, u))
    (hrec : s.files.find? (fun f => decide (f.Id = r.fileId)) = some rec)
    (hauth : (role = ReadWriteSelf ∧ u = rec.Creator) ∨ ReadWriteAll ≤ role)
    (hcreator : env.creatorQueryFails = false) (hcount : env.countQueryFails = false)
    (hdelete : env.deleteRowFails = false)
    (hremove : osRemove env.removeFails s.disk (filePath r.fileId) = none) :
    ∃ s1 : World,
      serve env fuel .deleteFile r s =
        some (respondJSON ResponseWriter.fresh 500
          [("message", .str "An unexpected error occurred")], s1) ∧
      (respondJSON ResponseWriter.fresh 500
          [("message", .str "An unexpected error occurred")]).status = some 500 ∧
      s1.files = s.files.filter (fun g => decide (g.Id ≠ r.fileId)) ∧
      s1.files.find? (fun g => decide (g.Id = r.fileId)) = none ∧
      s1.disk = s.disk ∧ s1.users = s.users := by
  have hrole : ReadWriteSelf ≤ role := by
    rcases hauth with ⟨h, _⟩ | h
    · exact le_of_eq h.symm
    · exact le_trans (by decide) h
  have hown : deleteOwnership env ResponseWriter.fresh s role u r.fileId = none := by
    rcases hauth with ⟨h, hu⟩ | h
    · have hlt : role < ReadWriteAll := by rw [h]; decide
      simp [deleteOwnership, hlt, queryCreator, hcreator, hrec, hu]
    · have hnlt : ¬ role < ReadWriteAll := Int.not_lt.mpr h
      simp [deleteOwnership, hnlt]
  refine ⟨{ s with files := s.files.filter (fun g => decide (g.Id ≠ r.fileId)) },
    ?_, rfl, rfl, ?_, rfl, rfl⟩
  · rw [serve_delete_authed env fuel r s role u hid hrole, hown]
    simp [queryCount, hcount, count_pos_of_find hrec, execDelete, hdelete, hremove,
      msgUnexpected]
  · rw [List.find?_eq_none]
    intro x hx
    have := (List.mem_filter.mp hx).2
    simpa using this

/-- C8 amended, at a concrete request: eve (`ReadWriteAll`) deletes bob's file while
`os.Remove` fails. -/
theorem delete_blob_failure_is_internal_error_witness :
    ∃ s1 : World,
      serve { Env.calm with removeFails := true } 0 .deleteFile
          (demoRequest "key-eve" "aaaaaaa2") demoWorld =
        some (respondJSON ResponseWriter.fresh 500
          [("message", .str "An unexpected error occurred")], s1) ∧
      (respondJSON ResponseWriter.fresh 500
          [("message", .str "An unexpected error occurred")]).status = some 500 ∧
      s1.files = demoWorld.files.filter (fun g => decide (g.Id ≠ "aaaaaaa2")) ∧
      s1.files.find? (fun g => decide (g.Id = "aaaaaaa2")) = none ∧
      s1.disk = demoWorld.disk ∧ s1.users = demoWorld.users :=
  delete_blob_failure_is_internal_error { Env.calm with removeFails := true } 0
    (demoRequest "key-eve" "aaaaaaa2") demoWorld 2 "eve"
    ⟨"aaaaaaa2", "todo.txt", "2024-01-02 00:00:00", "bob"⟩ rfl rfl (Or.inr (by decide))
    rfl rfl rfl rfl

/-! ## C7: the identifier allocator -/

section Allocator

theorem charset_length : charset.length = 62 := by decide

theorem charset_alphanum : ∀ c ∈ charset.data, c.isAlphanum = true := by decide

theorem drawId_length (rand : Nat → Nat) (k : Nat) : (drawId rand k).length = 8 := by
  show ((List.range 8).map _).length = 8
  rw [List.length_map, List.length_range]

theorem drawId_chars (rand : Nat → Nat) (k : Nat) :
    ∀ c ∈ (drawId rand k).data, c ∈ charset.data := by
  intro c hc
  simp only [drawId, List.mem_map] at hc
  obtain ⟨i, _, hi⟩ := hc
  have hpos : 0 < charset.length := by rw [charset_length]; decide
  have hlt : rand (8 * k + i) % charset.length < charset.data.length :=
    Nat.mod_lt _ hpos
  rw [← hi, List.getD_eq_getElem _ _ hlt]
  exact List.getElem_mem _

/-- One attempt of `newFileId`, with the catalog lookup spelled out. -/
theorem newFileId_succ (env : Env) (files : List File) (fuel k : Nat) :
    newFileId env files (fuel + 1) k =
      if env.idQueryFails k = true then some (.error .other)
      else if (files.filter (fun f => decide (f.Id = drawId env.rand k))).length > 0 then
        newFileId env files fuel (k + 1)
      else some (.ok (drawId env.rand k)) := by
  conv_lhs => rw [newFileId]
  cases hq : env.idQueryFails k <;> simp [queryCount]

theorem newFileId_ok {env : Env} {files : List File} {fuel k : Nat} {id : String}
    (h : newFileId env files fuel k = some (.ok id)) :
    (∃ j, j < fuel ∧ id = drawId env.rand (k + j)) ∧ ∀ f ∈ files, f.Id ≠ id := by
  induction fuel generalizing k with
  | zero => simp [newFileId] at h
  | succ fuel ih =>
    rw [newFileId_succ] at h
    by_cases hf : env.idQueryFails k = true
    · rw [if_pos hf] at h
      cases h
    · rw [if_neg hf] at h
      by_cases hc : (files.filter (fun f => decide (f.Id = drawId env.rand k))).length > 0
      · rw [if_pos hc] at h
        obtain ⟨⟨j, hj, hid⟩, hfresh⟩ := ih h
        have hk : k + 1 + j = k + (j + 1) := by omega
        exact ⟨⟨j + 1, by omega, by rw [hid, hk]⟩, hfresh⟩
      · rw [if_neg hc] at h
        have hid : drawId env.rand k = id := by injection h with h1; injection h1
        refine ⟨⟨0, by omega, by rw [Nat.add_zero, hid]⟩, ?_⟩
        intro f hmem heq
        apply hc
        have hin : f ∈ files.filter (fun f => decide (f.Id = drawId env.rand k)) := by
          rw [List.mem_filter]
          exact ⟨hmem, by simpa [hid] using heq⟩
        exact List.length_pos_of_mem hin

theorem newFileId_error {env : Env} {files : List File} {fuel k : Nat} {e : SqlErr}
    (h : newFileId env files fuel k = some (.error e)) :
    e = .other ∧ ∃ j, j < fuel ∧ env.idQueryFails (k + j) = true := by
  induction fuel generalizing k with
  | zero => simp [newFileId] at h
  | succ fuel ih =>
    rw [newFileId_succ] at h
    by_cases hf : env.idQueryFails k = true
    · rw [if_pos hf] at h
      have he : SqlErr.other = e := by injection h with h1; injection h1
      exact ⟨he.symm, 0, by omega, by rw [Nat.add_zero]; exact hf⟩
    · rw [if_neg hf] at h
      by_cases hc : (files.filter (fun f => decide (f.Id = drawId env.rand k))).length > 0
      · rw [if_pos hc] at h
        obtain ⟨he, j, hj, hfail⟩ := ih h
        have hk : k + 1 + j = k + (j + 1) := by omega
        exact ⟨he, j + 1, by omega, by rw [← hk]; exact hfail⟩
      · rw [if_neg hc] at h
        injection h with h1
        cases h1

theorem newFileId_none {env : Env} {files : List File} {fuel k : Nat}
    (h : newFileId env files fuel k = none) :
    ∀ j, j < fuel →
      env.idQueryFails (k + j) = false ∧ ∃ f ∈ files, f.Id = drawId env.rand (k + j) := by
  induction fuel generalizing k with
  | zero => intro j hj; omega
  | succ fuel ih =>
    rw [newFileId_succ] at h
    by_cases hf : env.idQueryFails k = true
    · rw [if_pos hf] at h
      cases h
    · rw [if_neg hf] at h
      by_cases hc : (files.filter (fun f => decide (f.Id = drawId env.rand k))).length > 0
      · rw [if_pos hc] at h
        intro j hj
        cases j with
        | zero =>
          obtain ⟨f, hmem⟩ := List.exists_mem_of_length_pos hc
          rw [List.mem_filter] at hmem
          exact ⟨by simpa using hf, f, hmem.1, by simpa using hmem.2⟩
        | succ j =>
          have := ih h j (by omega)
          have hk : k + (j + 1) = k + 1 + j := by omega
          rw [hk]
          exact this
      · rw [if_neg hc] at h
        cases h

end Allocator

/-- C7. The alphabet of `newFileId` has 62 characters, all of them letters or digits.
For every catalog, every sequence of random draws and lookup outcomes, and every bound
on the number of attempts: a returned id has exactly 8 characters, each from the
alphabet, and differs from the id of every record in the catalog; an error is returned
only when a catalog lookup failed (a collision leads to a fresh draw, never to an
error); and the attempts are exhausted only when every one of them collided. -/
theorem newFileId_spec (env : Env) (files : List File) (fuel k : Nat) :
    charset.length = 62 ∧ (∀ c ∈ charset.data, c.isAlphanum = true) ∧
    (∀ id : String, newFileId env files fuel k = some (.ok id) →
      id.length = 8 ∧ (∀ c ∈ id.data, c ∈ charset.data) ∧ ∀ f ∈ files, f.Id ≠ id) ∧
    (∀ e : SqlErr, newFileId env files fuel k = some (.error e) →
      e = .other ∧ ∃ j, j < fuel ∧ env.idQueryFails (k + j) = true) ∧
    ((∀ j, env.idQueryFails j = false) →
      ∀ e : SqlErr, newFileId env files fuel k ≠ some (.error e)) ∧
    (newFileId env files fuel k = none →
      ∀ j, j < fuel →
        env.idQueryFails (k + j) = false ∧ ∃ f ∈ files, f.Id = drawId env.rand (k + j)) := by
  refine ⟨charset_length, charset_alphanum, ?_, fun e h => newFileId_error h, ?_,
    fun h => newFileId_none h⟩
  · intro id h
    obtain ⟨⟨j, _, hid⟩, hfresh⟩ := newFileId_ok h
    refine ⟨?_, ?_, hfresh⟩
    · rw [hid]; exact drawId_length _ _
    · rw [hid]; exact drawId_chars _ _
  · intro hall e h
    obtain ⟨_, j, _, hfail⟩ := newFileId_error h
    rw [hall] at hfail
    cases hfail

/-- C7 at a concrete catalog: the first draw collides with a live record, the second is
returned. -/
theorem newFileId_spec_witness :
    newFileId Env.calm [⟨"abcdefgh", "x", "t", "amy"⟩] 2 0 = some (.ok "ijklmnop") ∧
    ("ijklmnop".length = 8 ∧ (∀ c ∈ "ijklmnop".data, c ∈ charset.data) ∧
      ∀ f ∈ [(⟨"abcdefgh", "x", "t", "amy"⟩ : File)], f.Id ≠ "ijklmnop") :=
  ⟨rfl, (newFileId_spec Env.calm [⟨"abcdefgh", "x", "t", "amy"⟩] 2 0).2.2.1 "ijklmnop" rfl⟩

/-! ## C4: upload, then download -/

section Upload

theorem status_respondJSON_fresh (c : Nat) (p : List (String × JSONValue)) :
    (respondJSON ResponseWriter.fresh c p).status = some c := rfl

theorem status_respondJSON_sent (w : ResponseWriter) (c0 c : Nat) (p : List (String × JSONValue))
    (h : w.status = some c0) : (respondJSON w c p).status = some c0 := by
  unfold ResponseWriter.status at h ⊢
  cases hs : w.sent with
  | none => rw [hs] at h; cases h
  | some x =>
    rw [hs] at h
    simp [respondJSON, ResponseWriter.WriteHeader, ResponseWriter.Write, hs] at h ⊢
    exact h

/-- The two kinds of result of `storeUpload`: a 500 response, or the 201 response with
the row appended and the payload stored. -/
theorem storeUpload_cases (env : Env) (w : ResponseWriter) (s : World) (fileId : String)
    (handler : FileHeader) (username : String) :
    (∃ s1, storeUpload env w s fileId handler username =
        (respondJSON w 500 msgUnexpected, s1)) ∨
    storeUpload env w s fileId handler username =
      (respondJSON w 201 [("message", .str "File uploaded successfully"), ("id", .str fileId)],
        { users := s.users,
          files := s.files ++ [⟨fileId, handler.Filename, env.now, username⟩],
          disk := diskPut (diskPut s.disk (filePath fileId) []) (filePath fileId)
            handler.content }) := by
  unfold storeUpload execInsert osCreate
  cases env.insertFails
  · cases env.createFails
    · cases env.seekFails
      · cases env.readFromFails
        · exact Or.inr rfl
        · exact Or.inl ⟨_, rfl⟩
      · exact Or.inl ⟨_, rfl⟩
    · exact Or.inl ⟨_, rfl⟩
  · exact Or.inl ⟨_, rfl⟩

theorem uploadHandler_created (env : Env) (fuel : Nat) (r : Request) (s : World)
    (w1 : ResponseWriter) (s1 : World)
    (h : uploadHandler env fuel ResponseWriter.fresh r s = some (w1, s1))
    (h201 : w1.status = some 201) :
    ∃ form handler id, r.form = some form ∧ Request.FormFile form "file" = some handler ∧
      newFileId env s.files fuel 0 = some (.ok id) ∧
      w1 = respondJSON ResponseWriter.fresh 201
        [("message", .str "File uploaded successfully"), ("id", .str id)] ∧
      s1 = { users := s.users,
             files := s.files ++ [⟨id, handler.Filename, env.now, r.Header.Get "username"⟩],
             disk := diskPut (diskPut s.disk (filePath id) []) (filePath id) handler.content } := by
  unfold uploadHandler at h
  split at h
  · injection h with h; injection h with hw hs; subst hw; exact absurd h201 (by decide)
  · split at h
    · injection h with h; injection h with hw hs; subst hw; exact absurd h201 (by decide)
    · split at h
      · injection h with h; injection h with hw hs; subst hw; exact absurd h201 (by decide)
      · rename_i form hform _ handler hfile
        split at h
        · cases h
        · exfalso
          have h500 : (respondJSON ResponseWriter.fresh 500 msgUnexpected).status = some 500 :=
            rfl
          injection h with h
          rcases storeUpload_cases env (respondJSON ResponseWriter.fresh 500 msgUnexpected) s ""
            handler (r.Header.Get "username") with ⟨s2, hc⟩ | hc
          all_goals
            rw [hc] at h
            injection h with hw hs
            subst hw
            rw [status_respondJSON_sent _ 500 _ _ h500] at h201
            cases h201
        · rename_i id halloc
          injection h with h
          rcases storeUpload_cases env ResponseWriter.fresh s id handler
            (r.Header.Get "username") with ⟨s2, hc⟩ | hc
          · rw [hc] at h
            injection h with hw hs
            subst hw
            exact absurd h201 (by decide)
          · rw [hc] at h
            injection h with hw hs
            exact ⟨form, handler, id, hform, hfile, halloc, hw.symm, hs.symm⟩

theorem validatePerms_created (env : Env) (q : PermissionLevel) (next : HandlerFunc)
    (r : Request) (s : World) (w1 : ResponseWriter) (s1 : World)
    (h : validatePerms env q next ResponseWriter.fresh r s = some (w1, s1))
    (h201 : w1.status = some 201) :
    ∃ role u, queryUser env.userQueryFails s.users (bearerToken r) = .ok (role, u) ∧
      q ≤ role ∧ next ResponseWriter.fresh (attachIdentity r u role) s = some (w1, s1) := by
  unfold validatePerms at h
  cases hid : queryUser env.userQueryFails s.users (bearerToken r) with
  | error e =>
    cases e <;> simp only [hid] at h <;>
      (injection h with h; injection h with hw hs; subst hw; exact absurd h201 (by decide))
  | ok p =>
    obtain ⟨role, u⟩ := p
    simp only [hid] at h
    split at h
    · injection h with h; injection h with hw hs; subst hw; exact absurd h201 (by decide)
    · rename_i hge
      exact ⟨role, u, rfl, Int.not_lt.mp hge, h⟩

end Upload

/-- What `respondFile` puts on the wire when it is the first to write: the given status,
a `Content-Disposition` header naming the file, the octet-stream content type, and the
file's bytes as the only body payload. -/
theorem respondFile_fresh (status : Nat) (fileName : String) (fileData : Bytes) :
    (respondFile ResponseWriter.fresh status fileName fileData).status = some status ∧
    (respondFile ResponseWriter.fresh status fileName fileData).body = [.data fileData] ∧
    ∃ hdr : Header,
      (respondFile ResponseWriter.fresh status fileName fileData).sent = some (status, hdr) ∧
      hdr.Get "Content-Disposition" = "attachment; filename=\"" ++ fileName ++ "\"" ∧
      hdr.Get "Content-Type" = "application/octet-stream" := by
  refine ⟨rfl, rfl,
    (Header.Set (Header.Set [] "Content-Disposition"
      ("attachment; filename=\"" ++ fileName ++ "\"")) "Content-Type"
      "application/octet-stream"), rfl, ?_, ?_⟩
  · rw [Header.Get_Set_other _ "Content-Disposition" "Content-Type" _ (by decide),
      Header.Get_Set_same]
  · rw [Header.Get_Set_same]

/-- C4. Let the upload request carry the payload `b` under the file name `n` (the
`Filename` of its parsed `file` part). If the upload is answered with 201, the response
body is the "File uploaded successfully" envelope with an id `i`, and a download of `i`
served on the resulting state (its catalog read and blob read succeeding) returns with
status 200, with the bytes `b` as its whole body, and with the headers
`Content-Disposition: attachment; filename="n"` and
`Content-Type: application/octet-stream` sent; the state is left as it was. -/
theorem upload_then_download (env : Env) (fuel : Nat) (r : Request) (s : World)
    (w1 : ResponseWriter) (s1 : World) (n : String) (b : Bytes)
    (hpart : r.form.bind (fun form => Request.FormFile form "file") = some ⟨n, b⟩)
    (hup : serve env fuel .postUpload r s = some (w1, s1))
    (h201 : w1.status = some 201) :
    ∃ i : String,
      w1.body = [.json [("message", .str "File uploaded successfully"), ("id", .str i)]] ∧
      ∀ (env2 : Env) (fuel2 : Nat) (r2 : Request), r2.fileId = i →
        env2.nameQueryFails = false → env2.readFileFails = false →
        ∃ w2 : ResponseWriter,
          serve env2 fuel2 .getFile r2 s1 = some (w2, s1) ∧
          w2 = respondFile ResponseWriter.fresh 200 n b ∧
          w2.status = some 200 ∧
          w2.body = [.data b] ∧
          ∃ hdr : Header, w2.sent = some (200, hdr) ∧
            hdr.Get "Content-Disposition" = "attachment; filename=\"" ++ n ++ "\"" ∧
            hdr.Get "Content-Type" = "application/octet-stream" := by
  obtain ⟨role, u, _, _, hnext⟩ :=
    validatePerms_created env ReadWriteSelf (uploadHandler env fuel) r s w1 s1 hup h201
  obtain ⟨form, handler, id, hform, hfile, halloc, hw, hs⟩ :=
    uploadHandler_created env fuel (attachIdentity r u role) s w1 s1 hnext h201
  have hform2 : r.form = some form := hform
  rw [hform2, Option.some_bind, hfile] at hpart
  injection hpart with hpart
  subst hpart
  have hfresh := (newFileId_ok halloc).2
  refine ⟨id, by rw [hw]; rfl, ?_⟩
  intro env2 fuel2 r2 hfileId hname hread
  have hfind : (s.files ++ [(⟨id, n, env.now, (attachIdentity r u role).Header.Get "username"⟩ :
      File)]).find? (fun f => decide (f.Id = id)) =
      some ⟨id, n, env.now, (attachIdentity r u role).Header.Get "username"⟩ := by
    rw [List.find?_append, find_none_of_absent hfresh]
    simp
  have hserve : serve env2 fuel2 .getFile r2 s1 =
      some (respondFile ResponseWriter.fresh 200 n b, s1) := by
    rw [serve_download, hfileId, hs]
    simp [queryFileName, hname, hfind, osReadFile, hread, diskLookup_diskPut]
  obtain ⟨hstatus, hbody, hdr, hsent, hdisp, htype⟩ := respondFile_fresh 200 n b
  exact ⟨_, hserve, rfl, hstatus, hbody, hdr, hsent, hdisp, htype⟩

/-- C4 at a concrete request: bob uploads three bytes as `a.txt`; the download of the
returned id carries status 200, those three bytes and the file name `a.txt`. -/
theorem upload_then_download_witness :
    ∃ i : String,
      [Written.json [("message", .str "File uploaded successfully"), ("id", .str "abcdefgh")]] =
        [.json [("message", .str "File uploaded successfully"), ("id", .str i)]] ∧
      ∀ (env2 : Env) (fuel2 : Nat) (r2 : Request), r2.fileId = i →
        env2.nameQueryFails = false → env2.readFileFails = false →
        ∃ w2 : ResponseWriter,
          serve env2 fuel2 .getFile r2
              { users := demoUsers,
                files := demoFiles ++ [⟨"abcdefgh", "a.txt", "2024-01-01 00:00:00", "bob"⟩],
                disk := [("db/abcdefgh.dat", [7, 8, 9]), ("db/aaaaaaa1.dat", [104, 105]),
                  ("db/aaaaaaa2.dat", [1, 2, 3])] } =
            some (w2,
              { users := demoUsers,
                files := demoFiles ++ [⟨"abcdefgh", "a.txt", "2024-01-01 00:00:00", "bob"⟩],
                disk := [("db/abcdefgh.dat", [7, 8, 9]), ("db/aaaaaaa1.dat", [104, 105]),
                  ("db/aaaaaaa2.dat", [1, 2, 3])] }) ∧
          w2 = respondFile ResponseWriter.fresh 200 "a.txt" [7, 8, 9] ∧
          w2.status = some 200 ∧
          w2.body = [.data [7, 8, 9]] ∧
          ∃ hdr : Header, w2.sent = some (200, hdr) ∧
            hdr.Get "Content-Disposition" = "attachment; filename=\"" ++ "a.txt" ++ "\"" ∧
            hdr.Get "Content-Type" = "application/octet-stream" :=
  upload_then_download Env.calm 1 (demoUpload "key-bob" "a.txt" [7, 8, 9]) demoWorld
    (respondJSON ResponseWriter.fresh 201
      [("message", .str "File uploaded successfully"), ("id", .str "abcdefgh")])
    { users := demoUsers,
      files := demoFiles ++ [⟨"abcdefgh", "a.txt", "2024-01-01 00:00:00", "bob"⟩],
      disk := [("db/abcdefgh.dat", [7, 8, 9]), ("db/aaaaaaa1.dat", [104, 105]),
        ("db/aaaaaaa2.dat", [1, 2, 3])] }
    "a.txt" [7, 8, 9] rfl rfl rfl

/-! ## Effect of each handler on the durable state -/

section Effects

theorem validatePerms_effect (env : Env) (q : PermissionLevel) (next : HandlerFunc)
    (w : ResponseWriter) (r : Request) (s : World) (w1 : ResponseWriter) (s1 : World)
    (h : validatePerms env q next w r s = some (w1, s1)) :
    s1 = s ∨ ∃ r1 : Request, r1.fileId = r.fileId ∧ next w r1 s = some (w1, s1) := by
  unfold validatePerms at h
  cases hid : queryUser env.userQueryFails s.users (bearerToken r) with
  | error e =>
    cases e <;> simp only [hid] at h <;>
      (injection h with h; injection h with hw hs; exact Or.inl hs.symm)
  | ok p =>
    obtain ⟨role, u⟩ := p
    simp only [hid] at h
    split at h
    · injection h with h; injection h with hw hs; exact Or.inl hs.symm
    · exact Or.inr ⟨attachIdentity r u role, rfl, h⟩

theorem listHandler_state (env : Env) (w : ResponseWriter) (r : Request) (s : World)
    (w1 : ResponseWriter) (s1 : World) (h : listHandler env w r s = some (w1, s1)) : s1 = s := by
  unfold listHandler at h
  split at h
  · injection h with h; injection h with hw hs; exact hs.symm
  · simp only at h
    split at h
    · injection h with h; injection h with hw hs; exact hs.symm
    · split at h
      · injection h with h; injection h with hw hs; exact hs.symm
      · injection h with h; injection h with hw hs; exact hs.symm

theorem downloadHandler_state (env : Env) (w : ResponseWriter) (r : Request) (s : World)
    (w1 : ResponseWriter) (s1 : World) (h : downloadHandler env w r s = some (w1, s1)) :
    s1 = s := by
  unfold downloadHandler at h
  simp only at h
  split at h
  · injection h with h; injection h with hw hs; exact hs.symm
  · injection h with h; injection h with hw hs; exact hs.symm
  · split at h
    · injection h with h; injection h with hw hs; exact hs.symm
    · injection h with h; injection h with hw hs; exact hs.symm

theorem deleteHandler_state (env : Env) (w : ResponseWriter) (r : Request) (s : World)
    (w1 : ResponseWriter) (s1 : World) (h : deleteHandler env w r s = some (w1, s1)) :
    s1 = s ∨
    (s1.users = s.users ∧ s1.files = s.files.filter (fun g => decide (g.Id ≠ r.fileId)) ∧
      ((s1.disk = s.disk ∧ osRemove env.removeFails s.disk (filePath r.fileId) = none) ∨
       (s1.disk = s.disk.filter (fun e => decide (e.1 ≠ filePath r.fileId)) ∧
        osRemove env.removeFails s.disk (filePath r.fileId) ≠ none))) := by
  unfold deleteHandler at h
  simp only at h
  split at h
  · injection h with h; injection h with hw hs; exact Or.inl hs.symm
  · split at h
    · injection h with h; injection h with hw hs; exact Or.inl hs.symm
    · split at h
      · injection h with h; injection h with hw hs; exact Or.inl hs.symm
      · split at h
        · injection h with h; injection h with hw hs; exact Or.inl hs.symm
        · split at h
          · injection h with h; injection h with hw hs; exact Or.inl hs.symm
          · rename_i files1 hdel
            have hfiles : files1 = s.files.filter (fun g => decide (g.Id ≠ r.fileId)) := by
              unfold execDelete at hdel
              split at hdel
              · cases hdel
              · injection hdel with hdel; exact hdel.symm
            split at h
            · rename_i hrm
              injection h with h; injection h with hw hs
              refine Or.inr ⟨by rw [← hs], by rw [← hs]; exact hfiles, Or.inl ⟨by rw [← hs], hrm⟩⟩
            · rename_i disk1 hrm
              injection h with h; injection h with hw hs
              have hdisk : disk1 = s.disk.filter (fun e => decide (e.1 ≠ filePath r.fileId)) := by
                unfold osRemove at hrm
                split at hrm
                · cases hrm
                · split at hrm
                  · cases hrm
                  · injection hrm with hrm; exact hrm.symm
              refine Or.inr ⟨by rw [← hs], by rw [← hs]; exact hfiles,
                Or.inr ⟨by rw [← hs]; exact hdisk, by rw [hrm]; intro hc; cases hc⟩⟩

theorem storeUpload_state (env : Env) (w : ResponseWriter) (s : World) (fileId : String)
    (handler : FileHeader) (username : String) :
    (storeUpload env w s fileId handler username).2 = s ∨
    ((storeUpload env w s fileId handler username).2.users = s.users ∧
      (storeUpload env w s fileId handler username).2.files =
        s.files ++ [⟨fileId, handler.Filename, env.now, username⟩] ∧
      (((storeUpload env w s fileId handler username).2.disk = s.disk ∧
          env.createFails = true) ∨
        (env.createFails = false ∧ ∃ data : Bytes, ∀ q : String,
          diskLookup (storeUpload env w s fileId handler username).2.disk q =
            if q = filePath fileId then some data else diskLookup s.disk q))) := by
  have hput2 : ∀ (data : Bytes) (q : String),
      diskLookup (diskPut (diskPut s.disk (filePath fileId) []) (filePath fileId) data) q =
        if q = filePath fileId then some data else diskLookup s.disk q := by
    intro data q
    rw [diskLookup_diskPut, diskLookup_diskPut]
    by_cases hq : q = filePath fileId <;> simp [hq]
  unfold storeUpload execInsert osCreate
  cases hi : env.insertFails
  · cases hc : env.createFails
    · cases hk : env.seekFails
      · cases hr : env.readFromFails
        · exact Or.inr ⟨rfl, rfl, Or.inr ⟨rfl, handler.content, hput2 _⟩⟩
        · exact Or.inr ⟨rfl, rfl, Or.inr ⟨rfl, _, hput2 _⟩⟩
      · exact Or.inr ⟨rfl, rfl, Or.inr ⟨rfl, [], fun q => diskLookup_diskPut _ _ q _⟩⟩
    · exact Or.inr ⟨rfl, rfl, Or.inl ⟨rfl, rfl⟩⟩
  · exact Or.inl rfl

theorem uploadHandler_state (env : Env) (fuel : Nat) (w : ResponseWriter) (r : Request)
    (s : World) (w1 : ResponseWriter) (s1 : World)
    (h : uploadHandler env fuel w r s = some (w1, s1)) :
    s1 = s ∨
    ∃ row : File, s1.users = s.users ∧ s1.files = s.files ++ [row] ∧
      (newFileId env s.files fuel 0 = some (.ok row.Id) ∨
        (row.Id = "" ∧ ∃ e, newFileId env s.files fuel 0 = some (.error e))) ∧
      ((s1.disk = s.disk ∧ env.createFails = true) ∨
       (env.createFails = false ∧ ∃ data : Bytes, ∀ q : String,
          diskLookup s1.disk q =
            if q = filePath row.Id then some data else diskLookup s.disk q)) := by
  unfold uploadHandler at h
  split at h
  · injection h with h; injection h with hw hs; exact Or.inl hs.symm
  · split at h
    · injection h with h; injection h with hw hs; exact Or.inl hs.symm
    · split at h
      · injection h with h; injection h with hw hs; exact Or.inl hs.symm
      · rename_i form hform _ handler hfile
        split at h
        · cases h
        · rename_i e halloc
          injection h with h
          have hs : (storeUpload env (respondJSON w 500 msgUnexpected) s "" handler
              (r.Header.Get "username")).2 = s1 := by rw [h]
          rcases storeUpload_state env (respondJSON w 500 msgUnexpected) s "" handler
            (r.Header.Get "username") with h0 | ⟨hu, hf, hd⟩
          · exact Or.inl (by rw [← hs, h0])
          · rw [hs] at hu hf hd
            exact Or.inr ⟨_, hu, hf, Or.inr ⟨rfl, e, halloc⟩, hd⟩
        · rename_i id halloc
          injection h with h
          have hs : (storeUpload env w s id handler (r.Header.Get "username")).2 = s1 := by
            rw [h]
          rcases storeUpload_state env w s id handler (r.Header.Get "username") with
            h0 | ⟨hu, hf, hd⟩
          · exact Or.inl (by rw [← hs, h0])
          · rw [hs] at hu hf hd
            exact Or.inr ⟨_, hu, hf, Or.inl halloc, hd⟩

end Effects

/-! ## C9: ids of the catalog after an allocation failure -/

/-- As long as no catalog lookup of `newFileId` fails, the ids of the catalog stay
pairwise different: every upload inserts an id that no live record has. -/
theorem ids_nodup_of_allocatorLookupsOk (users : List User) (s : World)
    (h : Reachable allocatorLookupsOk users s) : (s.files.map (fun f => f.Id)).Nodup := by
  induction h with
  | init => exact List.nodup_nil
  | @step s s1 env fuel route r w _ hok hserve ih =>
    unfold serve handleApi at hserve
    cases route with
    | postUpload =>
      rcases validatePerms_effect _ _ _ _ _ _ _ _ hserve with h0 | ⟨r1, _, hn⟩
      · rw [h0]; exact ih
      · rcases uploadHandler_state _ _ _ _ _ _ _ hn with h0 | ⟨row, _, hf, halloc, _⟩
        · rw [h0]; exact ih
        · rcases halloc with halloc | ⟨_, e, herr⟩
          · have hfresh := (newFileId_ok halloc).2
            rw [hf, List.map_append, List.nodup_append]
            refine ⟨ih, List.nodup_singleton _, ?_⟩
            intro a ha hb
            rw [List.map_singleton, List.mem_singleton] at hb
            obtain ⟨f, hm, hfa⟩ := List.mem_map.mp ha
            exact hfresh f hm (by rw [hfa, hb])
          · obtain ⟨_, j, _, hfail⟩ := newFileId_error herr
            rw [hok] at hfail
            cases hfail
    | getList =>
      rcases validatePerms_effect _ _ _ _ _ _ _ _ hserve with h0 | ⟨r1, _, hn⟩
      · rw [h0]; exact ih
      · rw [listHandler_state _ _ _ _ _ _ hn]; exact ih
    | getFile =>
      rw [downloadHandler_state _ _ _ _ _ _ hserve]; exact ih
    | deleteFile =>
      rcases validatePerms_effect _ _ _ _ _ _ _ _ hserve with h0 | ⟨r1, _, hn⟩
      · rw [h0]; exact ih
      · rcases deleteHandler_state _ _ _ _ _ _ hn with h0 | ⟨_, hf, _⟩
        · rw [h0]; exact ih
        · rw [hf]
          exact ih.sublist (List.Sublist.map _ (List.filter_sublist _))


/-- C9, evaluated on the code: two uploads by authorised callers during each of which the
catalog lookup of `newFileId` fails and every other storage call succeeds. Each upload
is answered with 500, yet each still inserts a record under the empty id, so the
reachable catalog holds two records with the same id. -/
theorem upload_after_failed_allocation_duplicates_id :
    ∃ (w1 w2 : ResponseWriter) (s1 s2 : World),
      serve Env.lookupDown 1 .postUpload (demoUpload "key-bob" "a.txt" [7])
          { users := demoUsers, files := [], disk := [] } = some (w1, s1) ∧
      serve Env.lookupDown 1 .postUpload (demoUpload "key-amy" "b.txt" [8]) s1 = some (w2, s2) ∧
      w1.status = some 500 ∧ w2.status = some 500 ∧
      Reachable uploadOrDelete demoUsers s2 ∧
      s2.files.map (fun f => f.Id) = ["", ""] ∧
      ¬ (s2.files.map (fun f => f.Id)).Nodup := by
  have h1 : serve Env.lookupDown 1 .postUpload (demoUpload "key-bob" "a.txt" [7])
      { users := demoUsers, files := [], disk := [] } =
      some (respondJSON (respondJSON ResponseWriter.fresh 500 msgUnexpected) 201
          [("message", .str "File uploaded successfully"), ("id", .str "")],
        { users := demoUsers, files := [⟨"", "a.txt", "2024-01-01 00:00:00", "bob"⟩],
          disk := [("db/.dat", [7])] }) := by rfl
  have h2 : serve Env.lookupDown 1 .postUpload (demoUpload "key-amy" "b.txt" [8])
      { users := demoUsers, files := [⟨"", "a.txt", "2024-01-01 00:00:00", "bob"⟩],
        disk := [("db/.dat", [7])] } =
      some (respondJSON (respondJSON ResponseWriter.fresh 500 msgUnexpected) 201
          [("message", .str "File uploaded successfully"), ("id", .str "")],
        { users := demoUsers,
          files := [⟨"", "a.txt", "2024-01-01 00:00:00", "bob"⟩,
            ⟨"", "b.txt", "2024-01-01 00:00:00", "amy"⟩],
          disk := [("db/.dat", [8])] }) := by rfl
  refine ⟨_, _, _, _, h1, h2, by rfl, by rfl, ?_, by rfl, by decide⟩
  exact Reachable.step (Reachable.step Reachable.init (Or.inl rfl) h1) (Or.inl rfl) h2

/-! ## C10: blobs and records exist together -/

section Consistency

theorem consistent_insert {s s1 : World} {row : File} {data : Bytes} (hs : Consistent s)
    (hf : s1.files = s.files ++ [row])
    (hd : ∀ q : String, diskLookup s1.disk q =
      if q = filePath row.Id then some data else diskLookup s.disk q) : Consistent s1 := by
  intro i
  rw [hd, hf]
  by_cases hi : i = row.Id
  · rw [hi]
    constructor
    · intro _
      exact ⟨row, List.mem_append_right _ (List.mem_singleton.mpr rfl), rfl⟩
    · intro _
      simp
  · have hp : filePath i ≠ filePath row.Id := fun hc => hi (filePath_injective hc)
    rw [if_neg hp, hs i]
    constructor
    · rintro ⟨f, hm, hfi⟩
      exact ⟨f, List.mem_append_left _ hm, hfi⟩
    · rintro ⟨f, hm, hfi⟩
      rcases List.mem_append.mp hm with hm | hm
      · exact ⟨f, hm, hfi⟩
      · rw [List.mem_singleton] at hm
        rw [hm] at hfi
        exact absurd hfi.symm hi

theorem consistent_delete {s s1 : World} {id : String} (hs : Consistent s)
    (hf : s1.files = s.files.filter (fun g => decide (g.Id ≠ id)))
    (hd : ∀ i : String, diskLookup s1.disk (filePath i) =
      if i = id then none else diskLookup s.disk (filePath i)) : Consistent s1 := by
  intro i
  rw [hd, hf]
  by_cases hi : i = id
  · rw [hi]
    simp
  · rw [if_neg hi, hs i]
    constructor
    · rintro ⟨f, hm, hfi⟩
      refine ⟨f, List.mem_filter.mpr ⟨hm, ?_⟩, hfi⟩
      rw [hfi]
      simpa using hi
    · rintro ⟨f, hm, hfi⟩
      exact ⟨f, (List.mem_filter.mp hm).1, hfi⟩

/-- One request preserves the pairing of blobs and records as long as neither
`os.Create` nor `os.Remove` fails by a fault. -/
theorem serve_consistent (env : Env) (fuel : Nat) (route : Route) (r : Request) (s : World)
    (w1 : ResponseWriter) (s1 : World) (hcreate : env.createFails = false)
    (hremove : env.removeFails = false) (hs : Consistent s)
    (h : serve env fuel route r s = some (w1, s1)) : Consistent s1 := by
  unfold serve handleApi at h
  cases route with
  | postUpload =>
    rcases validatePerms_effect _ _ _ _ _ _ _ _ h with h0 | ⟨r1, _, hn⟩
    · rw [h0]; exact hs
    · rcases uploadHandler_state _ _ _ _ _ _ _ hn with h0 | ⟨row, _, hf, _, hd⟩
      · rw [h0]; exact hs
      · rcases hd with ⟨_, hc⟩ | ⟨_, data, hd⟩
        · rw [hcreate] at hc; cases hc
        · exact consistent_insert hs hf hd
  | getList =>
    rcases validatePerms_effect _ _ _ _ _ _ _ _ h with h0 | ⟨r1, _, hn⟩
    · rw [h0]; exact hs
    · rw [listHandler_state _ _ _ _ _ _ hn]; exact hs
  | getFile =>
    rw [downloadHandler_state _ _ _ _ _ _ h]; exact hs
  | deleteFile =>
    rcases validatePerms_effect _ _ _ _ _ _ _ _ h with h0 | ⟨r1, hid, hn⟩
    · rw [h0]; exact hs
    · rcases deleteHandler_state _ _ _ _ _ _ hn with h0 | ⟨_, hf, hd⟩
      · rw [h0]; exact hs
      · rw [hid] at hf hd
        apply consistent_delete hs hf
        intro i
        rcases hd with ⟨hd, hrm⟩ | ⟨hd, _⟩
        · rw [hd]
          by_cases hi : i = r.fileId
          · rw [hi]
            unfold osRemove at hrm
            rw [hremove] at hrm
            cases hl : diskLookup s.disk (filePath r.fileId) with
            | none => simp
            | some x => rw [hl] at hrm; simp at hrm
          · rw [if_neg hi]
        · rw [hd, diskLookup_filter]
          by_cases hi : i = r.fileId
          · rw [hi]; simp
          · have hp : filePath i ≠ filePath r.fileId := fun hc => hi (filePath_injective hc)
            rw [if_neg hp, if_neg hi]

theorem Env.calm_storageOk : Env.calm.storageOk :=
  ⟨rfl, fun _ => rfl, rfl, rfl, rfl, rfl, rfl, fun _ => rfl, rfl, rfl, rfl, rfl, rfl, rfl⟩

end Consistency

/-- C10. In every state reachable from the empty catalog and the empty blob store by
upload, download, list and delete requests during which no catalog or blob-store call
fails, a blob is stored under id `i` if and only if the catalog has a record with id
`i`. -/
theorem blob_iff_record (users : List User) (s : World)
    (h : Reachable withoutStorageFault users s) (i : String) :
    (diskLookup s.disk (filePath i)).isSome = true ↔ ∃ f ∈ s.files, f.Id = i := by
  have hc : Consistent s := by
    induction h with
    | init =>
      intro j
      simp [diskLookup]
    | step _ hok hserve ih =>
      exact serve_consistent _ _ _ _ _ _ _ hok.2.2.2.1 hok.2.2.2.2.2.2.2.2.2.2.2.2.2 ih hserve
  exact hc i

/-- C10 at a concrete reachable state: after bob's upload the blob and the record of the
new id are both present. -/
theorem blob_iff_record_witness :
    (diskLookup [("db/abcdefgh.dat", ([7, 8, 9] : Bytes))] (filePath "abcdefgh")).isSome = true ↔
      ∃ f ∈ [(⟨"abcdefgh", "a.txt", "2024-01-01 00:00:00", "bob"⟩ : File)], f.Id = "abcdefgh" :=
  blob_iff_record demoUsers
    { users := demoUsers, files := [⟨"abcdefgh", "a.txt", "2024-01-01 00:00:00", "bob"⟩],
      disk := [("db/abcdefgh.dat", [7, 8, 9])] }
    (@Reachable.step withoutStorageFault demoUsers { users := demoUsers, files := [], disk := [] }
      _ Env.calm 1 .postUpload (demoUpload "key-bob" "a.txt" [7, 8, 9])
      (respondJSON ResponseWriter.fresh 201
        [("message", .str "File uploaded successfully"), ("id", .str "abcdefgh")])
      Reachable.init Env.calm_storageOk rfl)
    "abcdefgh"

/-! ## C11: download needs no credential -/

/-- C11. The download handler is registered without the guard and reads nothing of the
request but the file id: replacing the headers of a download request by any others (an
absent, invalid or valid `Authorization` header included) leaves the result, response
and state, the same. The download always returns, its status is 200, 404 or 500 and
never 401, and it leaves the state unchanged. -/
theorem download_ignores_credentials (env : Env) (fuel : Nat) (r : Request) (s : World) :
    (∀ hdr : Header,
      serve env fuel .getFile { r with Header := hdr } s = serve env fuel .getFile r s) ∧
    ∃ w : ResponseWriter, serve env fuel .getFile r s = some (w, s) ∧
      (w.status = some 200 ∨ w.status = some 404 ∨ w.status = some 500) ∧
      w.status ≠ some 401 := by
  refine ⟨fun hdr => rfl, ?_⟩
  rw [serve_download]
  cases hq : queryFileName env.nameQueryFails s.files r.fileId with
  | error e =>
    cases e
    · exact ⟨_, rfl, Or.inr (Or.inl rfl), by decide⟩
    · exact ⟨_, rfl, Or.inr (Or.inr rfl), by decide⟩
  | ok fileName =>
    cases hr : osReadFile env.readFileFails s.disk (filePath r.fileId) with
    | none => exact ⟨_, rfl, Or.inr (Or.inr rfl), by decide⟩
    | some fileData =>
      refine ⟨_, rfl, Or.inl rfl, ?_⟩
      intro hc
      cases hc

/-- C11 at concrete requests: a download without any header and one with a bearer token
that no user holds give the same 200 response. -/
theorem download_ignores_credentials_witness :
    serve Env.calm 0 .getFile
        { demoRequest "no-such-key" "aaaaaaa1" with Header := [] } demoWorld =
      serve Env.calm 0 .getFile (demoRequest "no-such-key" "aaaaaaa1") demoWorld ∧
    serve Env.calm 0 .getFile (demoRequest "no-such-key" "aaaaaaa1") demoWorld =
      some (respondFile ResponseWriter.fresh 200 "notes.txt" [104, 105], demoWorld) :=
  ⟨(download_ignores_credentials Env.calm 0 (demoRequest "no-such-key" "aaaaaaa1")
      demoWorld).1 [], rfl⟩

/-! ## C12: an upload whose id allocation fails -/

/-- After the guard and the form checks, an upload whose `newFileId` fails does not stop:
it runs the storing half of the handler with the empty id, on the response writer that
already carries the 500 response. -/
theorem uploadHandler_failed_allocation (env : Env) (fuel : Nat) (w : ResponseWriter)
    (r : Request) (s : World) (form : List (String × FileHeader)) (handler : FileHeader)
    (e : SqlErr) (hlen : ¬ 500 * 1024 * 1024 < r.bodyLen) (hform : r.form = some form)
    (hfile : Request.FormFile form "file" = some handler)
    (halloc : newFileId env s.files fuel 0 = some (.error e)) :
    uploadHandler env fuel w r s =
      some (storeUpload env (respondJSON w 500 msgUnexpected) s "" handler
        (r.Header.Get "username")) := by
  unfold uploadHandler
  rw [if_neg hlen]
  simp only [hform, hfile, halloc]

/-- C12, evaluated on the code: bob uploads `a.txt` while the catalog lookup of
`newFileId` fails and every other storage call succeeds. The response carries status 500,
but the handler has gone on: a record with the empty id is in the catalog, the payload is
stored as the blob of the empty id, and a second envelope announcing success follows the
error envelope in the body. -/
theorem upload_failed_allocation_persists :
    ∃ (w1 : ResponseWriter) (s1 : World),
      serve Env.lookupDown 1 .postUpload (demoUpload "key-bob" "a.txt" [7]) demoWorld =
        some (w1, s1) ∧
      newFileId Env.lookupDown demoWorld.files 1 0 = some (.error .other) ∧
      w1.status = some 500 ∧
      w1.body = [.json [("message", .str "An unexpected error occurred")],
        .json [("message", .str "File uploaded successfully"), ("id", .str "")]] ∧
      s1.files = demoWorld.files ++ [⟨"", "a.txt", "2024-01-01 00:00:00", "bob"⟩] ∧
      diskLookup demoWorld.disk (filePath "") = none ∧
      diskLookup s1.disk (filePath "") = some [7] ∧
      s1 ≠ demoWorld := by
  refine ⟨respondJSON (respondJSON ResponseWriter.fresh 500 msgUnexpected) 201
      [("message", .str "File uploaded successfully"), ("id", .str "")],
    { users := demoUsers,
      files := demoFiles ++ [⟨"", "a.txt", "2024-01-01 00:00:00", "bob"⟩],
      disk := [("db/.dat", [7]), ("db/aaaaaaa1.dat", [104, 105]),
        ("db/aaaaaaa2.dat", [1, 2, 3])] },
    by rfl, by rfl, by rfl, by rfl, by rfl, by rfl, by rfl, by decide⟩

/-! ## C13: the identity comes from the token, not from client headers -/

section Identity

theorem attachIdentity_header (r : Request) (u : String) (p : PermissionLevel) :
    (attachIdentity r u p).Header =
      (CanonicalMIMEHeaderKey "permissions", Itoa p) ::
        (CanonicalMIMEHeaderKey "username", u) :: r.Header.filter notIdentityHeader := by
  have hne : CanonicalMIMEHeaderKey "username" ≠ CanonicalMIMEHeaderKey "permissions" := by
    decide
  show (Header.Set (Header.Set r.Header "username" u) "permissions" (Itoa p)) = _
  unfold Header.Set
  rw [List.filter_cons_of_pos (by simpa using hne), List.filter_filter]
  rfl

theorem attachIdentity_congr {r1 r2 : Request} (h : sameExceptIdentity r1 r2) (u : String)
    (p : PermissionLevel) : attachIdentity r1 u p = attachIdentity r2 u p := by
  obtain ⟨hid, hlen, hform, hhdr⟩ := h
  have h1 := attachIdentity_header r1 u p
  have h2 := attachIdentity_header r2 u p
  rw [hhdr, ← h2] at h1
  cases r1
  cases r2
  simp only [attachIdentity] at h1 ⊢
  simp only at hid hlen hform
  rw [h1, hid, hlen, hform]

theorem Header.Get_filter_notIdentity (h : Header) (k : String)
    (hp : CanonicalMIMEHeaderKey k ≠ CanonicalMIMEHeaderKey "permissions")
    (hu : CanonicalMIMEHeaderKey k ≠ CanonicalMIMEHeaderKey "username") :
    Header.Get (h.filter notIdentityHeader) k = Header.Get h k := by
  have hfind : (h.filter notIdentityHeader).find?
        (fun kv => decide (kv.1 = CanonicalMIMEHeaderKey k)) =
      h.find? (fun kv => decide (kv.1 = CanonicalMIMEHeaderKey k)) := by
    induction h with
    | nil => rfl
    | cons e l ih =>
      by_cases hk : e.1 = CanonicalMIMEHeaderKey k
      · have hkeep : notIdentityHeader e = true := by
          simp [notIdentityHeader, hk, hp, hu]
        rw [List.filter_cons_of_pos hkeep, List.find?_cons_of_pos _ (by simpa using hk),
          List.find?_cons_of_pos _ (by simpa using hk)]
      · rw [List.find?_cons_of_neg _ (by simpa using hk), ← ih]
        by_cases hkeep : notIdentityHeader e = true
        · rw [List.filter_cons_of_pos hkeep, List.find?_cons_of_neg _ (by simpa using hk)]
        · rw [List.filter_cons_of_neg hkeep]
  unfold Header.Get
  rw [hfind]

theorem bearerToken_congr {r1 r2 : Request} (h : sameExceptIdentity r1 r2) :
    bearerToken r1 = bearerToken r2 := by
  unfold bearerToken
  rw [← Header.Get_filter_notIdentity r1.Header "Authorization" (by decide) (by decide),
    ← Header.Get_filter_notIdentity r2.Header "Authorization" (by decide) (by decide),
    h.2.2.2]

theorem validatePerms_congr (env : Env) (q : PermissionLevel) (next : HandlerFunc)
    (w : ResponseWriter) (s : World) {r1 r2 : Request} (h : sameExceptIdentity r1 r2) :
    validatePerms env q next w r1 s = validatePerms env q next w r2 s := by
  have hattach : ∀ (u : String) (p : PermissionLevel),
      attachIdentity r1 u p = attachIdentity r2 u p := attachIdentity_congr h
  simp only [validatePerms, bearerToken_congr h, hattach]

theorem serve_congr (env : Env) (fuel : Nat) (route : Route) (s : World) {r1 r2 : Request}
    (h : sameExceptIdentity r1 r2) : serve env fuel route r1 s = serve env fuel route r2 s := by
  unfold serve handleApi
  cases route with
  | postUpload => exact validatePerms_congr _ _ _ _ _ h
  | getList => exact validatePerms_congr _ _ _ _ _ h
  | getFile =>
    show downloadHandler env ResponseWriter.fresh r1 s = downloadHandler env ResponseWriter.fresh r2 s
    unfold downloadHandler
    rw [h.1]
  | deleteFile => exact validatePerms_congr _ _ _ _ _ h

theorem queryUser_ok_row {fails : Bool} {users : List User} {key : String}
    {p : PermissionLevel} {u : String} (h : queryUser fails users key = .ok (p, u)) :
    ∃ row ∈ users, row.api_key = key ∧ row.permissions = p ∧ row.username = u := by
  unfold queryUser at h
  split at h
  · cases h
  · split at h
    · cases h
    · rename_i row hfind
      split at h
      · injection h with h
        injection h with hp hu
        have hkey : (fun x : User => decide (x.api_key = key)) row = true :=
          @List.find?_some User (fun x => decide (x.api_key = key)) row users hfind
        exact ⟨row, List.mem_of_find?_eq_some hfind, by simpa using hkey, hp, hu⟩
      · cases h

end Identity

/-- C13. Let a request pass `validatePerms`: its token resolves to the stored row
`(role, u)` and the role is at least the required one. Then the wrapped handler runs on
a request for which `getPermissions` returns `role` without error and the `username`
header reads `u`, whatever `username` or `permissions` headers the client sent;
`strconv.Atoi` undoes `strconv.Itoa` on every value of a Go `int`. A second request that
differs only in its `username` and `permissions` headers is passed on as the very same
request, and gives the same outcome on every route. -/
theorem identity_from_token (env : Env) (q : PermissionLevel) (next : HandlerFunc)
    (w : ResponseWriter) (r : Request) (s : World) (role : PermissionLevel) (u : String)
    (hid : queryUser env.userQueryFails s.users (bearerToken r) = .ok (role, u))
    (hq : q ≤ role) :
    (∃ row ∈ s.users, row.api_key = bearerToken r ∧ row.permissions = role ∧
      row.username = u) ∧
    validatePerms env q next w r s = next w (attachIdentity r u role) s ∧
    getPermissions (attachIdentity r u role) = .ok role ∧
    (attachIdentity r u role).Header.Get "username" = u ∧
    (∀ i : Int, inInt64 i = true → Atoi (Itoa i) = .ok i) ∧
    (∀ r2 : Request, sameExceptIdentity r r2 →
      attachIdentity r2 u role = attachIdentity r u role ∧
      validatePerms env q next w r2 s = validatePerms env q next w r s ∧
      ∀ (fuel : Nat) (route : Route), serve env fuel route r2 s = serve env fuel route r s) := by
  refine ⟨queryUser_ok_row hid, validatePerms_pass env q next w r s role u hid hq,
    getPermissions_attachIdentity r u role (queryUser_ok_inInt64 hid),
    attachIdentity_username r u role, Atoi_Itoa, ?_⟩
  intro r2 hsame
  exact ⟨(attachIdentity_congr hsame u role).symm,
    (validatePerms_congr env q next w s hsame).symm,
    fun fuel route => (serve_congr env fuel route s hsame).symm⟩

/-- C13 at a concrete request: bob sends `username: Master` and `permissions: 3` next to
his own token. The handler still sees bob with role 1, and his delete of amy's file is
refused exactly as without the two headers. -/
theorem identity_from_token_witness :
    getPermissions (attachIdentity (forgedRequest "key-bob" "aaaaaaa1") "bob" 1) = .ok 1 ∧
    (attachIdentity (forgedRequest "key-bob" "aaaaaaa1") "bob" 1).Header.Get "username" =
      "bob" ∧
    serve Env.calm 0 .deleteFile (demoRequest "key-bob" "aaaaaaa1") demoWorld =
      serve Env.calm 0 .deleteFile (forgedRequest "key-bob" "aaaaaaa1") demoWorld ∧
    serve Env.calm 0 .deleteFile (forgedRequest "key-bob" "aaaaaaa1") demoWorld =
      some (respondJSON ResponseWriter.fresh 401
        [("message", .str "Insufficient permissions")], demoWorld) :=
  have h := identity_from_token Env.calm ReadWriteSelf (deleteHandler Env.calm)
    ResponseWriter.fresh (forgedRequest "key-bob" "aaaaaaa1") demoWorld 1 "bob" rfl
    (by decide)
  ⟨h.2.2.1, h.2.2.2.1,
    ((h.2.2.2.2.2 (demoRequest "key-bob" "aaaaaaa1") ⟨rfl, rfl, rfl, by rfl⟩).2.2 0
      .deleteFile),
    by rfl⟩

end EulmFiles
